import Mathlib

/-!
Shallow embedding of the alquileres-app-backend recurring-generation core.

The embedding covers:
* `src/unnamed/part_000` (second file, `utils/hierarchicalPath.js`): `getCollection`
  (period-key construction) and `getExpenses` (reading one property's expense items
  for a period, error-degrading to `[]`);
* `src/services/AlquileresRecurringService.js`: `_calculateDates`,
  `_cleanDataForNewPeriod`, `_generateRecurringExpenses`, `generateRecurringRecords`,
  `getDataSummary`;
* `src/api/routes/recurring.js`: the `/validate` endpoint body.

Modelling conventions:
* The Firestore document store is an explicit association list of collections keyed
  by `(propertyId, collectionKey)`, where the collection key is the period key
  `"{year}-{month padded}"` for the per-period `items` subcollection and `""` for the
  unscoped base `expenses` collection (which `getCollection` returns when `year` or
  `month` is JS-falsy).  Documents created by `collection.add` become real documents
  of that collection, so later reads of the same collection return them.
* A transient store read failure is modelled by a `readFails` flag on a collection:
  the JS `getExpenses` catches any read error and returns `[]`, which the model
  reproduces.  Store writes are modelled as always succeeding.
* JS wall-clock reads (`new Date()`) are an injected `todayYear`/`todayMonth` pair
  and an injected timestamp string `now` (all `toISOString()` stamps of one run use
  the same `now`; no claim depends on their distinctness).
* JS numbers for years/months are modelled as `Int`; JS truthiness of a possibly
  missing number (`undefined`/`0` falsy) is `jsOrInt`/`truthyInt`; likewise for
  strings (`""` falsy).
* The `try/catch` blocks of `generateRecurringRecords` (property level) and of
  `_generateRecurringExpenses` (its outermost one) are unreachable in this model:
  every operation they guard either cannot throw here or catches its own errors
  internally and degrades (`getExpenses` returns `[]`, per-item errors are caught by
  the per-item `catch`).  A non-canonical `dueDate` string is the one per-item throw
  site (`toISOString` raising `RangeError` on an invalid date) and is modelled by
  `Except.error "Invalid time value"`.
-/

set_option maxHeartbeats 1000000

/-- JS `s.padStart(2, '0')`. -/
def padStart2 (s : String) : String :=
  if s.length = 0 then "00"
  else if s.length = 1 then "0" ++ s
  else s

/-- Period key `${year}-${month.toString().padStart(2, '0')}` (part_000, line 149). -/
def periodKey (year month : Int) : String :=
  toString year ++ "-" ++ padStart2 (toString month)

/-- JS truthiness of an optional number (`undefined` and `0` are falsy). -/
def truthyInt : Option Int → Bool
  | none => false
  | some v => v != 0

/-- JS `a || dflt` for an optional number. -/
def jsOrInt (v : Option Int) (dflt : Int) : Int :=
  match v with
  | none => dflt
  | some x => if x = 0 then dflt else x

/-- JS truthiness of an optional string (`undefined` and `""` are falsy). -/
def truthyStr : Option String → Bool
  | none => false
  | some s => s != ""

/-- JS `a || dflt` for an optional string. -/
def jsOrStr (v : Option String) (dflt : String) : String :=
  match v with
  | none => dflt
  | some x => if x = "" then dflt else x

/-- Location descriptor returned by `getCollection` (part_000, lines 124-177). -/
inductive Loc where
  | propertiesCol : Loc
  | unitsCol : Loc
  | expensesBase : String → Loc
  | expenseItems : String → String → Loc
  | incomesBase : String → String → Loc
  | incomeDoc : String → String → String → Loc
deriving DecidableEq

/-- `getCollection(db, type, propertyId, unitId, year, month)` from part_000.
Throws (here: `Except.error`) on a falsy `propertyId` for expenses, on falsy
`propertyId`/`unitId` for incomes, and on an unsupported `type`.  Note that it
performs no month-range validation: any nonzero month is embedded into the period
key, and a month of `0` is falsy and falls back to the unscoped base collection. -/
def getCollection (type : String) (propertyId unitId : Option String)
    (year month : Option Int) : Except String Loc :=
  if type = "properties" then Except.ok Loc.propertiesCol
  else if type = "units" then Except.ok Loc.unitsCol
  else if type = "expenses" then
    if truthyStr propertyId = false then
      Except.error "propertyId es requerido para expenses"
    else
      let pid := propertyId.getD ""
      if truthyInt year = false || truthyInt month = false then
        Except.ok (Loc.expensesBase pid)
      else
        Except.ok (Loc.expenseItems pid (periodKey (year.getD 0) (month.getD 0)))
  else if type = "incomes" then
    if truthyStr propertyId = false || truthyStr unitId = false then
      Except.error "propertyId y unitId son requeridos para incomes"
    else
      let pid := propertyId.getD ""
      let uid := unitId.getD ""
      if truthyInt year = false || truthyInt month = false then
        Except.ok (Loc.incomesBase pid uid)
      else
        Except.ok (Loc.incomeDoc pid uid (periodKey (year.getD 0) (month.getD 0)))
  else Except.error ("Tipo no soportado: " ++ type)

/-- Gregorian leap year (JS `Date` arithmetic). -/
def isLeapYear (y : Int) : Bool :=
  (y % 4 == 0 && y % 100 != 0) || y % 400 == 0

/-- Days in a month of the proleptic Gregorian calendar. -/
def daysInMonth (y m : Int) : Int :=
  if m = 2 then (if isLeapYear y then 29 else 28)
  else if m = 4 ∨ m = 6 ∨ m = 9 ∨ m = 11 then 30
  else 31

/-- Character-level split on `'-'`, the behavior of JS `"YYYY-MM-DD".split('-')`. -/
def splitDash : List Char → List (List Char)
  | [] => [[]]
  | c :: rest =>
    match splitDash rest with
    | [] => [[]]
    | g :: gs => if c = '-' then [] :: g :: gs else (c :: g) :: gs

/-- Numeric value of a decimal digit character. -/
def digitVal (c : Char) : Nat := c.toNat - 48

/-- Decimal value of a digit string. -/
def digitsToNat (cs : List Char) : Nat :=
  cs.foldl (fun a c => a * 10 + digitVal c) 0

/-- All-digit non-empty character run. -/
def allDigits (cs : List Char) : Bool :=
  decide (cs ≠ []) && cs.all Char.isDigit

/-- Strict parse of a canonical `YYYY-MM-DD` date string, the format produced by
`toISOString().split('T')[0]` and accepted (as a UTC date) by JS `new Date(s)`.
Non-canonical strings are treated as the invalid-date case. -/
def parseISODate (s : String) : Option (Int × Int × Int) :=
  match splitDash s.toList with
  | [ys, ms, ds] =>
    if ys.length = 4 && ms.length = 2 && ds.length = 2
        && allDigits ys && allDigits ms && allDigits ds then
      let y : Int := digitsToNat ys
      let m : Int := digitsToNat ms
      let d : Int := digitsToNat ds
      if 1 ≤ m ∧ m ≤ 12 ∧ 1 ≤ d ∧ d ≤ daysInMonth y m then some (y, m, d)
      else none
    else none
  | _ => none

/-- Left-pad a digit string with zeros to the given length. -/
def padZeros (n : Nat) (s : String) : String :=
  if s.length < n then String.mk (List.replicate (n - s.length) '0') ++ s else s

/-- Render a date as the `YYYY-MM-DD` prefix of `toISOString()`. -/
def formatISODate (y m d : Int) : String :=
  padZeros 4 (toString y.toNat) ++ "-" ++ padZeros 2 (toString m.toNat)
    ++ "-" ++ padZeros 2 (toString d.toNat)

/-- The month immediately after `(y, m)` for `1 ≤ m ≤ 12`. -/
def nextMonth (y m : Int) : Int × Int :=
  if m = 12 then (y + 1, 1) else (y, m + 1)

/-- JS `setMonth(getMonth() + 1)` normalization: the same day in the next month,
with day overflow (e.g. Jan 31 → "Feb 31") rolling into the following month. -/
def addOneMonthDate (y m d : Int) : Int × Int × Int :=
  let q := nextMonth y m
  if d ≤ daysInMonth q.1 q.2 then (q.1, q.2, d)
  else
    let r := nextMonth q.1 q.2
    (r.1, r.2, d - daysInMonth q.1 q.2)

/-- Service lines 243-246: `new Date(dueDate)`, `setMonth(getMonth() + 1)`,
`toISOString().split('T')[0]`.  `none` is the invalid-date case, where
`toISOString()` throws `RangeError: Invalid time value`. -/
def advanceDueDate (s : String) : Option String :=
  match parseISODate s with
  | none => none
  | some (y, m, d) =>
    match addOneMonthDate y m d with
    | (y2, m2, d2) => some (formatISODate y2 m2 d2)

/-- `generatedFrom` metadata stamped on a generated item (service lines 189-195). -/
structure GenerationLineage where
  sourceDocId : Option String
  sourceYear : Int
  sourceMonth : Int
  propertyId : String
  generatedAt : String
deriving DecidableEq

/-- Fields of an expense item document that the core reads or writes.  A field
value of `none` models the field being absent from the JS object. -/
structure ExpenseData where
  id : Option String := none
  description : Option String := none
  amount : Option Int := none
  isRecurring : Option Bool := none
  isActive : Option Bool := none
  year : Option Int := none
  month : Option Int := none
  dueDate : Option String := none
  paymentDate : Option String := none
  paidDate : Option String := none
  receipt : Option String := none
  referenceNumber : Option String := none
  createdAt : Option String := none
  updatedAt : Option String := none
  generatedFrom : Option GenerationLineage := none
deriving DecidableEq

/-- A stored document: its store-assigned id plus its field data. -/
structure StoredDoc where
  docId : String
  data : ExpenseData
deriving DecidableEq

/-- One collection of expense documents.  `readFails` marks a collection whose
snapshot read fails (the environment fault that `getExpenses` catches). -/
structure PeriodCol where
  docs : List StoredDoc := []
  readFails : Bool := false
deriving DecidableEq

/-- A document of the top-level `properties` collection. -/
structure PropertyRec where
  id : String
  name : Option String := none
deriving DecidableEq

/-- The document store: the `properties` collection plus the expense collections,
keyed by `(propertyId, collectionKey)`. -/
structure Store where
  properties : List PropertyRec
  cols : List ((String × String) × PeriodCol)
deriving DecidableEq

/-- Read a collection; a collection never written and never seeded is empty. -/
def getCol (s : Store) (pid key : String) : PeriodCol :=
  match s.cols.find? (fun e => e.1 = (pid, key)) with
  | some e => e.2
  | none => {}

/-- Replace the contents of one collection. -/
def setCol (s : Store) (pid key : String) (c : PeriodCol) : Store :=
  { s with cols := ((pid, key), c) :: s.cols.filter (fun e => ¬(e.1 = (pid, key))) }

/-- Firestore `collection.add`: append a new document with a store-assigned id. -/
def addDoc (s : Store) (pid key : String) (d : ExpenseData) : Store :=
  let c := getCol s pid key
  setCol s pid key
    { c with docs := c.docs ++ [⟨"auto" ++ toString c.docs.length, d⟩] }

/-- The collection key used by `getCollection(db, 'expenses', pid, null, y, m)`:
the period key when both parts are truthy, the base `expenses` collection (key
`""`) otherwise (part_000, lines 144-153). -/
def expensesColKey (year month : Int) : String :=
  if year = 0 ∨ month = 0 then "" else periodKey year month

/-- Snapshot mapping `{ id: doc.id, ...doc.data() }` (part_000, lines 305-310).
The spread comes after `id`, so an `id` field embedded in the document data wins
over the document's own store id. -/
def readDoc (d : StoredDoc) : ExpenseData :=
  { d.data with id := some (d.data.id.getD d.docId) }

/-- `getExpenses(db, propertyId, year, month)` (part_000, lines 299-317): resolves
the collection, reads its snapshot, merges ids; any error (falsy `propertyId`
making `getCollection` throw, or a failed snapshot read) is caught and degrades to
`[]`. -/
def getExpenses (s : Store) (pid : String) (year month : Int) : List ExpenseData :=
  if pid = "" then []
  else
    let c := getCol s pid (expensesColKey year month)
    if c.readFails then [] else c.docs.map readDoc

/-- `_cleanDataForNewPeriod` (service lines 228-255): copy all fields, delete the
payment-status fields, move `year`/`month` to the target period, advance a truthy
`dueDate` by one month, reset `isActive`/`createdAt`/`updatedAt`. -/
def _cleanDataForNewPeriod (data : ExpenseData) (targetYear targetMonth : Int)
    (now : String) : Except String ExpenseData :=
  let base : ExpenseData :=
    { data with
      paymentDate := none, paidDate := none, receipt := none, referenceNumber := none,
      year := some targetYear, month := some targetMonth,
      isActive := some true, createdAt := some now, updatedAt := some now }
  match data.dueDate with
  | some ds =>
    if ds = "" then Except.ok base
    else
      match advanceDueDate ds with
      | some ds2 => Except.ok { base with dueDate := some ds2 }
      | none => Except.error "Invalid time value"
  | none => Except.ok base

/-- One entry of the per-run error list (service lines 83-87, 206-212, 220). -/
structure ErrEntry where
  type : String
  propertyId : String
  expenseId : Option String := none
  description : Option String := none
  error : String
deriving DecidableEq

/-- Per-property counters `{ created, skipped, errors }` (service line 148). -/
structure PropResult where
  created : Nat := 0
  skipped : Nat := 0
  errors : List ErrEntry := []
deriving DecidableEq

/-- Pointwise aggregation of per-property results (service lines 76-78). -/
def PropResult.add (a b : PropResult) : PropResult :=
  ⟨a.created + b.created, a.skipped + b.skipped, a.errors ++ b.errors⟩

/-- Duplicate detection (service lines 174-177): some existing target item has the
same `description` and the same `amount` (JS `===`; `undefined === undefined` is
`true`, matching equality of absent fields here). -/
def isDuplicate (existing : List ExpenseData) (e : ExpenseData) : Bool :=
  existing.any (fun ex => decide (ex.description = e.description ∧ ex.amount = e.amount))

/-- The generated item: the cleaned copy plus `generatedFrom` (service 186-195). -/
def buildNewExpense (e cd : ExpenseData) (pid : String) (sourceYear sourceMonth : Int)
    (now : String) : ExpenseData :=
  { cd with generatedFrom := some ⟨e.id, sourceYear, sourceMonth, pid, now⟩ }

/-- Body of the per-item loop (service lines 171-214), threading the result
counters and the store.  A failing `_cleanDataForNewPeriod` is the caught per-item
error; on a non-dry run the built item is added to the target collection. -/
def processExpense (pid : String) (sourceYear sourceMonth targetYear targetMonth : Int)
    (dryRun : Bool) (now : String) (existing : List ExpenseData)
    (acc : PropResult × Store) (e : ExpenseData) : PropResult × Store :=
  let r := acc.1
  let st := acc.2
  if isDuplicate existing e then
    ({ r with skipped := r.skipped + 1 }, st)
  else
    match _cleanDataForNewPeriod e targetYear targetMonth now with
    | Except.error msg =>
      ({ r with errors := r.errors ++
          [⟨"expense", pid, e.id, some (jsOrStr e.description "Sin descripción"), msg⟩] }, st)
    | Except.ok cd =>
      let newExpenseData := buildNewExpense e cd pid sourceYear sourceMonth now
      if dryRun then
        ({ r with created := r.created + 1 }, st)
      else
        ({ r with created := r.created + 1 },
         addDoc st pid (expensesColKey targetYear targetMonth) newExpenseData)

/-- `_generateRecurringExpenses` (service lines 141-222): read the source period,
keep the `isRecurring === true` items, snapshot the target period once, then run
the per-item loop.  Its outer `catch` is unreachable here (see the header note). -/
def _generateRecurringExpenses (st : Store) (propertyId : String)
    (sourceYear sourceMonth targetYear targetMonth : Int) (dryRun : Bool)
    (now : String) : PropResult × Store :=
  let sourceExpenses := getExpenses st propertyId sourceYear sourceMonth
  if sourceExpenses.isEmpty then (⟨0, 0, []⟩, st)
  else
    let recurringExpenses := sourceExpenses.filter (fun e => decide (e.isRecurring = some true))
    if recurringExpenses.isEmpty then (⟨0, 0, []⟩, st)
    else
      let existingExpenses := getExpenses st propertyId targetYear targetMonth
      recurringExpenses.foldl
        (processExpense propertyId sourceYear sourceMonth targetYear targetMonth
          dryRun now existingExpenses)
        (⟨0, 0, []⟩, st)

/-- The four derived period parts (service `_calculateDates` result). -/
structure GenDates where
  sourceYear : Int
  sourceMonth : Int
  targetYear : Int
  targetMonth : Int
deriving DecidableEq

/-- Options of `generateRecurringRecords` (service lines 24-29). -/
structure GenOptions where
  sourceYear : Option Int := none
  sourceMonth : Option Int := none
  targetYear : Option Int := none
  targetMonth : Option Int := none
  dryRun : Bool := false
deriving DecidableEq

/-- `_calculateDates` (service lines 261-283): source defaults to today, target
defaults to the month after source, rolling the year past December. -/
def _calculateDates (options : GenOptions) (todayYear todayMonth : Int) : GenDates :=
  let sourceYear := jsOrInt options.sourceYear todayYear
  let sourceMonth := jsOrInt options.sourceMonth todayMonth
  if truthyInt options.targetYear && truthyInt options.targetMonth then
    ⟨sourceYear, sourceMonth, options.targetYear.getD 0, options.targetMonth.getD 0⟩
  else
    if sourceMonth + 1 > 12 then ⟨sourceYear, sourceMonth, sourceYear + 1, 1⟩
    else ⟨sourceYear, sourceMonth, sourceYear, sourceMonth + 1⟩

/-- `results.summary` of a completed run (service lines 57-65, 92-94). -/
structure RunSummary where
  sourceYear : Int
  sourceMonth : Int
  targetYear : Int
  targetMonth : Int
  dryRun : Bool
  timestamp : String
  propertiesProcessed : Nat
  totalCreated : Nat
  totalSkipped : Nat
  totalErrors : Nat
deriving DecidableEq

/-- Top-level result of `generateRecurringRecords`: either the no-properties
failure (lines 45-50) or the completed-run shape (lines 98-101). -/
structure GenResult where
  success : Bool
  error : Option String := none
  expenses : Option PropResult := none
  summary : Option RunSummary := none
deriving DecidableEq

/-- `_getAllProperties` (service lines 117-135); its snapshot read is total here. -/
def _getAllProperties (s : Store) : List PropertyRec :=
  s.properties

/-- Body of the per-property loop (service lines 68-89), threading the aggregate
result, the processed count and the store.  The property-level `catch` is
unreachable because `_generateRecurringExpenses` never throws in this model. -/
def processProperty (sourceYear sourceMonth targetYear targetMonth : Int)
    (dryRun : Bool) (now : String)
    (acc : PropResult × Nat × Store) (p : PropertyRec) : PropResult × Nat × Store :=
  let pr := _generateRecurringExpenses acc.2.2 p.id sourceYear sourceMonth
    targetYear targetMonth dryRun now
  (acc.1.add pr.1, acc.2.1 + 1, pr.2)

/-- `generateRecurringRecords` (service lines 32-111). -/
def generateRecurringRecords (st : Store) (options : GenOptions)
    (todayYear todayMonth : Int) (now : String) : GenResult × Store :=
  let d := _calculateDates options todayYear todayMonth
  let properties := _getAllProperties st
  if properties.isEmpty then
    ({ success := false, error := some "No se encontraron propiedades" }, st)
  else
    let z := properties.foldl
      (processProperty d.sourceYear d.sourceMonth d.targetYear d.targetMonth
        options.dryRun now)
      (⟨0, 0, []⟩, 0, st)
    ({ success := true,
       expenses := some z.1,
       summary := some ⟨d.sourceYear, d.sourceMonth, d.targetYear, d.targetMonth,
                        options.dryRun, now, z.2.1, z.1.created, z.1.skipped,
                        z.1.errors.length⟩ }, z.2.2)

/-- One entry of `propertiesSummary.expenses` (service lines 312-317). -/
structure PropSummaryItem where
  id : Option String
  description : Option String
  amount : Option Int
  isRecurring : Bool
deriving DecidableEq

/-- One entry of `propertiesSummary` (service lines 307-318). -/
structure PropSummary where
  propertyId : String
  propertyName : String
  totalExpenses : Nat
  recurringExpenses : Nat
  expenses : List PropSummaryItem
deriving DecidableEq

/-- The `summary` block of `getDataSummary` (service lines 332-337). -/
structure SummaryData where
  properties : Nat
  totalExpenses : Nat
  totalRecurringExpenses : Nat
  propertiesSummary : List PropSummary
deriving DecidableEq

/-- Result of `getDataSummary` (service lines 339-344); `success` is always `true`
here because every store interaction it performs is caught or total. -/
structure SummaryResult where
  success : Bool
  year : Int
  month : Int
  summary : SummaryData
deriving DecidableEq

/-- `getDataSummary` (service lines 291-353). -/
def getDataSummary (s : Store) (year month : Int) : SummaryResult :=
  let properties := _getAllProperties s
  let per := properties.map (fun p =>
    let expenses := getExpenses s p.id year month
    let recurring := expenses.filter (fun e => decide (e.isRecurring = some true))
    (⟨p.id, jsOrStr p.name "Sin nombre", expenses.length, recurring.length,
      expenses.map (fun e => ⟨e.id, e.description, e.amount, e.isRecurring.getD false⟩)⟩
      : PropSummary))
  { success := true
    year := year
    month := month
    summary :=
      ⟨properties.length,
       per.foldl (fun a q => a + q.totalExpenses) 0,
       per.foldl (fun a q => a + q.recurringExpenses) 0,
       per⟩ }

/-- Response of the `/validate` endpoint (recurring.js lines 271-282). -/
structure ValidateResult where
  success : Bool
  canGenerate : Bool
  sourcePeriod : Int × Int
  targetPeriod : Int × Int
  warnings : List String
  errors : List String
deriving DecidableEq

/-- Body of `router.post('/validate')` (recurring.js lines 206-292).  Lines
211-228 duplicate `_calculateDates` verbatim, so the model reuses it.  `errors`
and `canGenerate` accumulate in source order: source-summary failure (impossible
here), then the same-period hard error; warnings likewise. -/
def validateGeneration (s : Store) (options : GenOptions)
    (todayYear todayMonth : Int) : ValidateResult :=
  let d := _calculateDates options todayYear todayMonth
  let sourceData := getDataSummary s d.sourceYear d.sourceMonth
  let targetData := getDataSummary s d.targetYear d.targetMonth
  let errors1 : List String :=
    if sourceData.success = true then [] else ["Error al obtener datos del período fuente"]
  let warnings1 : List String :=
    if sourceData.success = true ∧ sourceData.summary.totalRecurringExpenses = 0 then
      ["No hay expenses recurrentes en el período fuente"]
    else []
  let warnings2 : List String :=
    if targetData.success = true ∧ 0 < targetData.summary.totalExpenses then
      ["Ya existen " ++ toString targetData.summary.totalExpenses
        ++ " expenses en el período destino"]
    else []
  let samePeriod : Bool :=
    decide (d.targetYear = d.sourceYear ∧ d.targetMonth = d.sourceMonth)
  let errors2 : List String :=
    if samePeriod then ["El período destino no puede ser igual al período fuente"] else []
  let warnings3 : List String :=
    if d.targetYear < d.sourceYear ∨ (d.targetYear = d.sourceYear ∧ d.targetMonth < d.sourceMonth) then
      ["El período destino es anterior al período fuente"]
    else []
  { success := true
    canGenerate := sourceData.success && !samePeriod
    sourcePeriod := (d.sourceYear, d.sourceMonth)
    targetPeriod := (d.targetYear, d.targetMonth)
    warnings := warnings1 ++ warnings2 ++ warnings3
    errors := errors1 ++ errors2 }

/-- Accessor: `created` of a run result, `0` when the run failed early. -/
def resCreated (r : GenResult) : Nat :=
  (r.expenses.map PropResult.created).getD 0

/-- Accessor: `skipped` of a run result, `0` when the run failed early. -/
def resSkipped (r : GenResult) : Nat :=
  (r.expenses.map PropResult.skipped).getD 0

/-- Accessor: the error list of a run result. -/
def resErrors (r : GenResult) : List ErrEntry :=
  (r.expenses.map PropResult.errors).getD []

/-- Success shape of `_cleanDataForNewPeriod` without the timestamp: cleaning
fails only when a truthy `dueDate` does not parse as a date. -/
def cleanOk (e : ExpenseData) : Bool :=
  match e.dueDate with
  | none => true
  | some ds => decide (ds = "") || (advanceDueDate ds).isSome

/-- Documents created by appending `items` to a collection already holding `n`
documents, with their store-assigned ids. -/
def mkDocs (n : Nat) : List ExpenseData → List StoredDoc
  | [] => []
  | d :: ds => ⟨"auto" ++ toString n, d⟩ :: mkDocs (n + 1) ds

/-- Sequentially add a list of documents to one collection. -/
def appendItems (st : Store) (pid key : String) (items : List ExpenseData) : Store :=
  items.foldl (fun s d => addDoc s pid key d) st

/-- Store-free core of `processExpense`: the same per-item branching, recording
the built items instead of adding them. -/
def processExpensePure (pid : String) (sourceYear sourceMonth targetYear targetMonth : Int)
    (now : String) (existing : List ExpenseData)
    (acc : PropResult × List ExpenseData) (e : ExpenseData) : PropResult × List ExpenseData :=
  if isDuplicate existing e then
    ({ acc.1 with skipped := acc.1.skipped + 1 }, acc.2)
  else
    match _cleanDataForNewPeriod e targetYear targetMonth now with
    | Except.error msg =>
      ({ acc.1 with errors := acc.1.errors ++
          [⟨"expense", pid, e.id, some (jsOrStr e.description "Sin descripción"), msg⟩] }, acc.2)
    | Except.ok cd =>
      ({ acc.1 with created := acc.1.created + 1 },
       acc.2 ++ [buildNewExpense e cd pid sourceYear sourceMonth now])

/-- The per-item loop as a pure function of the recurring list and the target
snapshot: the result counters plus the list of built items, in order. -/
def pureGen (pid : String) (sourceYear sourceMonth targetYear targetMonth : Int)
    (now : String) (existing R : List ExpenseData) : PropResult × List ExpenseData :=
  R.foldl (processExpensePure pid sourceYear sourceMonth targetYear targetMonth now existing)
    (⟨0, 0, []⟩, [])

/-- Factored form of `_generateRecurringExpenses`: compute the pure result, then
append the built items to the target collection (unless `dryRun`). -/
def genExpensesSpec (st : Store) (propertyId : String)
    (sourceYear sourceMonth targetYear targetMonth : Int) (dryRun : Bool)
    (now : String) : PropResult × Store :=
  let src := getExpenses st propertyId sourceYear sourceMonth
  if src.isEmpty then (⟨0, 0, []⟩, st)
  else
    let R := src.filter (fun e => decide (e.isRecurring = some true))
    if R.isEmpty then (⟨0, 0, []⟩, st)
    else
      let pg := pureGen propertyId sourceYear sourceMonth targetYear targetMonth now
        (getExpenses st propertyId targetYear targetMonth) R
      (pg.1,
       if dryRun then st
       else appendItems st propertyId (expensesColKey targetYear targetMonth) pg.2)

/-- The per-property loop step, phrased over `genExpensesSpec`. -/
def processPropertySpec (sourceYear sourceMonth targetYear targetMonth : Int)
    (dryRun : Bool) (now : String)
    (acc : PropResult × Nat × Store) (p : PropertyRec) : PropResult × Nat × Store :=
  let pr := genExpensesSpec acc.2.2 p.id sourceYear sourceMonth targetYear targetMonth
    dryRun now
  (acc.1.add pr.1, acc.2.1 + 1, pr.2)

/-- Number of recurring items a property reports in one period. -/
def recurringCount (st : Store) (pid : String) (year month : Int) : Nat :=
  ((getExpenses st pid year month).filter (fun e => decide (e.isRecurring = some true))).length

/-- Characterization of an item built by one generation run: it is the cleaned
copy of some recurring source item with `generatedFrom` lineage attached. -/
def NewDocSpec (s : Store) (d : GenDates) (now : String) (pid : String)
    (x : ExpenseData) : Prop :=
  ∃ e, e ∈ getExpenses s pid d.sourceYear d.sourceMonth ∧ e.isRecurring = some true ∧
    ∃ cd, _cleanDataForNewPeriod e d.targetYear d.targetMonth now = Except.ok cd ∧
      x = buildNewExpense e cd pid d.sourceYear d.sourceMonth now

def recurringTotal (st : Store) (sy sm : Int) : List PropertyRec → Nat
  | [] => 0
  | p :: ps => recurringCount st p.id sy sm + recurringTotal st sy sm ps

def GenInv (s : Store) (sy sm ty tm : Int) (now : String) (st : Store) : Prop :=
  ∀ pid key,
    (¬ key = expensesColKey ty tm → getCol st pid key = getCol s pid key)
    ∧ (key = expensesColKey ty tm →
        (getCol st pid key).readFails = (getCol s pid key).readFails
        ∧ ∃ extra, (getCol st pid key).docs = (getCol s pid key).docs ++ extra
            ∧ ∀ x ∈ extra, NewDocSpec s ⟨sy, sm, ty, tm⟩ now pid x.data)

/-- Demo store: one property with a recurring and a non-recurring item. -/
def demoStore : Store :=
  { properties := [⟨"p1", none⟩],
    cols := [(("p1", "2025-06"),
      ⟨[⟨"doc1", { description := some "Rent", amount := some 500,
                   isRecurring := some true }⟩,
        ⟨"doc2", { description := some "Repair", amount := some 80,
                   isRecurring := some false }⟩], false⟩)] }

/-- Demo options: June 2025 to July 2025, not a dry run. -/
def demoOpts : GenOptions := ⟨some 2025, some 6, some 2025, some 7, false⟩

/-- The item data the demo run persists into July 2025. -/
def demoGenData : ExpenseData :=
  { id := some "doc1", description := some "Rent", amount := some 500,
    isRecurring := some true, isActive := some true, year := some 2025, month := some 7,
    createdAt := some "T", updatedAt := some "T",
    generatedFrom := some ⟨some "doc1", 2025, 6, "p1", "T"⟩ }

/-- Store with one property whose source-period collection read fails. -/
def storeC5 : Store :=
  { properties := [⟨"p1", none⟩],
    cols := [(("p1", "2025-06"),
      ⟨[⟨"doc1", { description := some "Rent", amount := some 500,
                   isRecurring := some true }⟩], true⟩)] }

/-- Store with one ordinary user-entered recurring item (no embedded id). -/
def storeC10 : Store :=
  { properties := [⟨"p1", none⟩],
    cols := [(("p1", "2025-06"),
      ⟨[⟨"doc1", { description := some "Rent", amount := some 500,
                   isRecurring := some true }⟩], false⟩)] }

/-- Store after a first generation run, June 2025 to July 2025. -/
def storeC10After1 : Store :=
  (generateRecurringRecords storeC10 ⟨some 2025, some 6, some 2025, some 7, false⟩
    2025 6 "T1").2

/-- Options of the chained second run, July 2025 to August 2025. -/
def optsC10b : GenOptions := ⟨some 2025, some 7, some 2025, some 8, false⟩

/-- Store after the chained second generation run. -/
def storeC10After2 : Store :=
  (generateRecurringRecords storeC10After1 optsC10b 2025 7 "T2").2

def c10GenData2 : ExpenseData :=
  { id := some "doc1", description := some "Rent", amount := some 500,
    isRecurring := some true, isActive := some true, year := some 2025, month := some 8,
    createdAt := some "T2", updatedAt := some "T2",
    generatedFrom := some ⟨some "doc1", 2025, 7, "p1", "T2"⟩ }

theorem find?_filter_ne {α β : Type} [DecidableEq α] (l : List (α × β)) (a b : α)
    (h : ¬ b = a) :
    (l.filter (fun e => ¬(e.1 = a))).find? (fun e => e.1 = b)
      = l.find? (fun e => e.1 = b) := by
  induction l with
  | nil => rfl
  | cons x xs ih =>
    by_cases hx : x.1 = a
    · rw [List.filter_cons_of_neg (by simp [hx])]
      rw [List.find?_cons_of_neg _ (by simp [hx]; intro hba; exact h hba.symm)]
      exact ih
    · rw [List.filter_cons_of_pos (by simp [hx])]
      by_cases hb : x.1 = b
      · rw [List.find?_cons_of_pos _ (by simp [hb]), List.find?_cons_of_pos _ (by simp [hb])]
      · rw [List.find?_cons_of_neg _ (by simp [hb]), List.find?_cons_of_neg _ (by simp [hb])]
        exact ih

theorem getCol_setCol (s : Store) (pid key pid2 key2 : String) (c : PeriodCol) :
    getCol (setCol s pid key c) pid2 key2
      = if (pid2, key2) = (pid, key) then c else getCol s pid2 key2 := by
  unfold getCol setCol
  by_cases h : ((pid2, key2) : String × String) = (pid, key)
  · rw [if_pos h]
    show (match List.find? (fun e => decide (e.1 = (pid2, key2)))
        (((pid, key), c) :: List.filter (fun e => decide ¬e.1 = (pid, key)) s.cols) with
      | some e => e.2
      | none => ({} : PeriodCol)) = c
    rw [List.find?_cons_of_pos _ (by simp [h])]
  · rw [if_neg h]
    show (match List.find? (fun e => decide (e.1 = (pid2, key2)))
        (((pid, key), c) :: List.filter (fun e => decide ¬e.1 = (pid, key)) s.cols) with
      | some e => e.2
      | none => ({} : PeriodCol)) = _
    rw [List.find?_cons_of_neg _ (by simp; intro h1 h2; exact h (by rw [h1, h2]))]
    rw [find?_filter_ne _ _ _ h]

theorem properties_setCol (s : Store) (pid key : String) (c : PeriodCol) :
    (setCol s pid key c).properties = s.properties := rfl

theorem properties_addDoc (s : Store) (pid key : String) (d : ExpenseData) :
    (addDoc s pid key d).properties = s.properties := rfl

theorem getCol_addDoc_ne (s : Store) (pid key pid2 key2 : String) (d : ExpenseData)
    (h : ¬ ((pid2, key2) : String × String) = (pid, key)) :
    getCol (addDoc s pid key d) pid2 key2 = getCol s pid2 key2 := by
  unfold addDoc
  rw [getCol_setCol, if_neg h]

theorem getCol_addDoc_same (s : Store) (pid key : String) (d : ExpenseData) :
    getCol (addDoc s pid key d) pid key
      = { docs := (getCol s pid key).docs
            ++ [⟨"auto" ++ toString (getCol s pid key).docs.length, d⟩],
          readFails := (getCol s pid key).readFails } := by
  unfold addDoc
  rw [getCol_setCol, if_pos rfl]

theorem appendItems_nil (st : Store) (pid key : String) :
    appendItems st pid key [] = st := rfl

theorem appendItems_cons (st : Store) (pid key : String) (d : ExpenseData)
    (ds : List ExpenseData) :
    appendItems st pid key (d :: ds) = appendItems (addDoc st pid key d) pid key ds := rfl

theorem properties_appendItems (st : Store) (pid key : String) (items : List ExpenseData) :
    (appendItems st pid key items).properties = st.properties := by
  induction items generalizing st with
  | nil => rfl
  | cons d ds ih => rw [appendItems_cons, ih, properties_addDoc]

theorem getCol_appendItems_ne (st : Store) (pid key pid2 key2 : String)
    (items : List ExpenseData) (h : ¬ ((pid2, key2) : String × String) = (pid, key)) :
    getCol (appendItems st pid key items) pid2 key2 = getCol st pid2 key2 := by
  induction items generalizing st with
  | nil => rfl
  | cons d ds ih => rw [appendItems_cons, ih, getCol_addDoc_ne _ _ _ _ _ _ h]

theorem getCol_appendItems_same (st : Store) (pid key : String)
    (items : List ExpenseData) :
    getCol (appendItems st pid key items) pid key
      = { docs := (getCol st pid key).docs
            ++ mkDocs (getCol st pid key).docs.length items,
          readFails := (getCol st pid key).readFails } := by
  induction items generalizing st with
  | nil => rw [appendItems_nil]; simp [mkDocs]
  | cons d ds ih =>
    rw [appendItems_cons, ih, getCol_addDoc_same]
    simp [mkDocs, List.append_assoc]

theorem mkDocs_map_data (n : Nat) (items : List ExpenseData) :
    (mkDocs n items).map StoredDoc.data = items := by
  induction items generalizing n with
  | nil => rfl
  | cons d ds ih => simp [mkDocs, ih]

theorem mkDocs_mem_data (n : Nat) (items : List ExpenseData) (x : ExpenseData)
    (h : x ∈ items) : ∃ sd, sd ∈ mkDocs n items ∧ sd.data = x := by
  induction items generalizing n with
  | nil => cases h
  | cons d ds ih =>
    rw [List.mem_cons] at h
    rcases h with rfl | h
    · exact ⟨⟨"auto" ++ toString n, x⟩, List.mem_cons_self _ _, rfl⟩
    · obtain ⟨sd, hm, hd⟩ := ih (n + 1) h
      exact ⟨sd, List.mem_cons_of_mem _ hm, hd⟩

theorem readDoc_description (sd : StoredDoc) : (readDoc sd).description = sd.data.description := rfl

theorem readDoc_amount (sd : StoredDoc) : (readDoc sd).amount = sd.data.amount := rfl

theorem PropResult.add_zero_right (r : PropResult) : r.add ⟨0, 0, []⟩ = r := by
  simp [PropResult.add]

theorem PropResult.zero_add_left (r : PropResult) : PropResult.add ⟨0, 0, []⟩ r = r := by
  simp [PropResult.add]

theorem PropResult.add_assoc (a b c : PropResult) :
    (a.add b).add c = a.add (b.add c) := by
  simp [PropResult.add, Nat.add_assoc, List.append_assoc]

theorem processExpensePure_shift (pid : String) (sy sm ty tm : Int) (now : String)
    (existing : List ExpenseData) (acc : PropResult × List ExpenseData) (e : ExpenseData) :
    processExpensePure pid sy sm ty tm now existing acc e
      = (acc.1.add (processExpensePure pid sy sm ty tm now existing (⟨0, 0, []⟩, []) e).1,
         acc.2 ++ (processExpensePure pid sy sm ty tm now existing (⟨0, 0, []⟩, []) e).2) := by
  unfold processExpensePure
  by_cases hd : isDuplicate existing e
  · simp [hd, PropResult.add]
  · rcases h : _cleanDataForNewPeriod e ty tm now with msg | cd <;>
      simp [hd, h, PropResult.add]

theorem foldl_processExpensePure_acc (pid : String) (sy sm ty tm : Int) (now : String)
    (existing : List ExpenseData) (R : List ExpenseData) :
    ∀ (acc : PropResult × List ExpenseData),
      R.foldl (processExpensePure pid sy sm ty tm now existing) acc
        = (acc.1.add (pureGen pid sy sm ty tm now existing R).1,
           acc.2 ++ (pureGen pid sy sm ty tm now existing R).2) := by
  induction R with
  | nil =>
    intro acc
    simp [pureGen, PropResult.add_zero_right]
  | cons e R ih =>
    intro acc
    rw [List.foldl_cons, ih]
    have h2 : pureGen pid sy sm ty tm now existing (e :: R)
        = ((processExpensePure pid sy sm ty tm now existing (⟨0, 0, []⟩, []) e).1.add
             (pureGen pid sy sm ty tm now existing R).1,
           (processExpensePure pid sy sm ty tm now existing (⟨0, 0, []⟩, []) e).2
             ++ (pureGen pid sy sm ty tm now existing R).2) := by
      unfold pureGen
      rw [List.foldl_cons, ih]
      rfl
    rw [h2, processExpensePure_shift]
    rw [PropResult.add_assoc]
    simp [List.append_assoc]

theorem pureGen_cons (pid : String) (sy sm ty tm : Int) (now : String)
    (existing : List ExpenseData) (e : ExpenseData) (R : List ExpenseData) :
    pureGen pid sy sm ty tm now existing (e :: R)
      = ((processExpensePure pid sy sm ty tm now existing (⟨0, 0, []⟩, []) e).1.add
           (pureGen pid sy sm ty tm now existing R).1,
         (processExpensePure pid sy sm ty tm now existing (⟨0, 0, []⟩, []) e).2
           ++ (pureGen pid sy sm ty tm now existing R).2) := by
  unfold pureGen
  rw [List.foldl_cons, foldl_processExpensePure_acc]
  rfl

theorem appendItems_append (st : Store) (pid key : String) (l1 l2 : List ExpenseData) :
    appendItems st pid key (l1 ++ l2) = appendItems (appendItems st pid key l1) pid key l2 := by
  unfold appendItems
  rw [List.foldl_append]

theorem processExpense_eq_pure (pid : String) (sy sm ty tm : Int) (dr : Bool) (now : String)
    (existing : List ExpenseData) (acc : PropResult × Store) (e : ExpenseData) :
    processExpense pid sy sm ty tm dr now existing acc e
      = (acc.1.add (processExpensePure pid sy sm ty tm now existing (⟨0, 0, []⟩, []) e).1,
         if dr then acc.2
         else appendItems acc.2 pid (expensesColKey ty tm)
           (processExpensePure pid sy sm ty tm now existing (⟨0, 0, []⟩, []) e).2) := by
  unfold processExpense processExpensePure
  by_cases hd : isDuplicate existing e
  · simp [hd, PropResult.add, appendItems_nil]
  · rcases h : _cleanDataForNewPeriod e ty tm now with msg | cd
    · simp [hd, h, PropResult.add, appendItems_nil]
    · by_cases hdr : dr
      · simp [hd, h, hdr, PropResult.add]
      · simp only [hd, h, hdr, Bool.false_eq_true, if_false, if_neg]
        simp [PropResult.add, appendItems, List.foldl_cons]

theorem foldl_processExpense_factor (pid : String) (sy sm ty tm : Int) (dr : Bool)
    (now : String) (existing : List ExpenseData) (R : List ExpenseData) :
    ∀ (acc : PropResult × Store),
      R.foldl (processExpense pid sy sm ty tm dr now existing) acc
        = (acc.1.add (pureGen pid sy sm ty tm now existing R).1,
           if dr then acc.2
           else appendItems acc.2 pid (expensesColKey ty tm)
             (pureGen pid sy sm ty tm now existing R).2) := by
  induction R with
  | nil =>
    intro acc
    simp [pureGen, PropResult.add_zero_right, appendItems_nil]
  | cons e R ih =>
    intro acc
    rw [List.foldl_cons, ih, pureGen_cons, processExpense_eq_pure]
    by_cases hdr : dr
    · simp only [hdr, if_true]
      rw [PropResult.add_assoc]
    · simp only [hdr, Bool.false_eq_true, if_false]
      rw [PropResult.add_assoc, appendItems_append]

theorem generateRecurring_eq_spec (st : Store) (pid : String) (sy sm ty tm : Int)
    (dr : Bool) (now : String) :
    _generateRecurringExpenses st pid sy sm ty tm dr now
      = genExpensesSpec st pid sy sm ty tm dr now := by
  unfold _generateRecurringExpenses genExpensesSpec
  by_cases h1 : (getExpenses st pid sy sm).isEmpty
  · simp only [h1, if_true]
  · simp only [h1, Bool.false_eq_true, if_false]
    by_cases h2 : ((getExpenses st pid sy sm).filter
        (fun e => decide (e.isRecurring = some true))).isEmpty
    · simp only [h2, if_true]
    · simp only [h2, Bool.false_eq_true, if_false]
      rw [foldl_processExpense_factor]
      simp [PropResult.zero_add_left]

theorem cleanData_shape (e : ExpenseData) (ty tm : Int) (now : String) :
    (cleanOk e = true ∧ ∃ cd, _cleanDataForNewPeriod e ty tm now = Except.ok cd)
    ∨ (cleanOk e = false
        ∧ _cleanDataForNewPeriod e ty tm now = Except.error "Invalid time value") := by
  unfold cleanOk _cleanDataForNewPeriod
  rcases h : e.dueDate with _ | ds <;> simp only [h]
  · exact Or.inl ⟨trivial, _, rfl⟩
  · by_cases hds : ds = ""
    · refine Or.inl ⟨by simp [hds], ?_⟩
      exact ⟨_, by rw [if_pos hds]⟩
    · rcases ha : advanceDueDate ds with _ | d2
      · refine Or.inr ⟨by simp [hds, ha], ?_⟩
        rw [if_neg hds]
      · refine Or.inl ⟨by simp [hds, ha], ?_⟩
        exact ⟨_, by rw [if_neg hds]⟩

theorem cleanData_ok_fields (e : ExpenseData) (ty tm : Int) (now : String)
    (cd : ExpenseData) (h : _cleanDataForNewPeriod e ty tm now = Except.ok cd) :
    cd.description = e.description ∧ cd.amount = e.amount ∧ cd.id = e.id
    ∧ cd.paymentDate = none ∧ cd.paidDate = none ∧ cd.receipt = none
    ∧ cd.referenceNumber = none ∧ cd.year = some ty ∧ cd.month = some tm
    ∧ cd.isActive = some true := by
  unfold _cleanDataForNewPeriod at h
  rcases hd : e.dueDate with _ | ds <;> simp only [hd] at h
  · simp only [Except.ok.injEq] at h
    subst h
    exact ⟨rfl, rfl, rfl, rfl, rfl, rfl, rfl, rfl, rfl, rfl⟩
  · by_cases hds : ds = ""
    · simp only [if_pos hds, Except.ok.injEq] at h
      subst h
      exact ⟨rfl, rfl, rfl, rfl, rfl, rfl, rfl, rfl, rfl, rfl⟩
    · simp only [if_neg hds] at h
      rcases ha : advanceDueDate ds with _ | d2
      · rw [ha] at h
        exact absurd h (by simp)
      · rw [ha] at h
        simp only [Except.ok.injEq] at h
        subst h
        exact ⟨rfl, rfl, rfl, rfl, rfl, rfl, rfl, rfl, rfl, rfl⟩

theorem isDuplicate_append (l1 l2 : List ExpenseData) (e : ExpenseData) :
    isDuplicate (l1 ++ l2) e = (isDuplicate l1 e || isDuplicate l2 e) := by
  unfold isDuplicate
  rw [List.any_append]

theorem isDuplicate_of_mem_match (l : List ExpenseData) (e x : ExpenseData)
    (hx : x ∈ l) (hdesc : x.description = e.description) (ham : x.amount = e.amount) :
    isDuplicate l e = true := by
  unfold isDuplicate
  rw [List.any_eq_true]
  exact ⟨x, hx, by simp [hdesc, ham]⟩

theorem isDuplicate_self (l : List ExpenseData) (e : ExpenseData) (h : e ∈ l) :
    isDuplicate l e = true :=
  isDuplicate_of_mem_match l e e h rfl rfl

theorem pureGen_nil (pid : String) (sy sm ty tm : Int) (now : String)
    (existing : List ExpenseData) :
    pureGen pid sy sm ty tm now existing [] = (⟨0, 0, []⟩, []) := rfl

theorem pureGen_all_dup (pid : String) (sy sm ty tm : Int) (now : String)
    (existing : List ExpenseData) (R : List ExpenseData)
    (h : ∀ e ∈ R, isDuplicate existing e = true) :
    pureGen pid sy sm ty tm now existing R = (⟨0, R.length, []⟩, []) := by
  induction R with
  | nil => rfl
  | cons e R ih =>
    rw [pureGen_cons, ih (fun x hx => h x (List.mem_cons_of_mem _ hx))]
    have hd := h e (List.mem_cons_self _ _)
    unfold processExpensePure
    simp [hd, PropResult.add, Nat.add_comm]

theorem pureGen_items_origin (pid : String) (sy sm ty tm : Int) (now : String)
    (existing : List ExpenseData) (R : List ExpenseData) :
    ∀ x ∈ (pureGen pid sy sm ty tm now existing R).2,
      ∃ e, e ∈ R ∧ isDuplicate existing e = false ∧
        ∃ cd, _cleanDataForNewPeriod e ty tm now = Except.ok cd ∧
          x = buildNewExpense e cd pid sy sm now := by
  induction R with
  | nil => intro x hx; cases hx
  | cons e R ih =>
    intro x hx
    rw [pureGen_cons] at hx
    simp only at hx
    rw [List.mem_append] at hx
    rcases hx with hx | hx
    · unfold processExpensePure at hx
      by_cases hd : isDuplicate existing e
      · simp [hd] at hx
      · rcases hcl : _cleanDataForNewPeriod e ty tm now with msg | cd
        · simp [hd, hcl] at hx
        · simp only [hd, hcl, Bool.false_eq_true, if_false] at hx
          simp only [List.nil_append, List.mem_singleton] at hx
          exact ⟨e, List.mem_cons_self _ _, by simp [hd], cd, hcl, hx⟩
    · obtain ⟨f, hf, hdup, cd, hcl, hb⟩ := ih x hx
      exact ⟨f, List.mem_cons_of_mem _ hf, hdup, cd, hcl, hb⟩

theorem pureGen_item_exists (pid : String) (sy sm ty tm : Int) (now : String)
    (existing : List ExpenseData) (R : List ExpenseData) (e : ExpenseData)
    (he : e ∈ R) (hdup : isDuplicate existing e = false) (hok : cleanOk e = true) :
    ∃ x, x ∈ (pureGen pid sy sm ty tm now existing R).2
      ∧ x.description = e.description ∧ x.amount = e.amount := by
  induction R with
  | nil => cases he
  | cons f R ih =>
    rw [List.mem_cons] at he
    rw [pureGen_cons]
    simp only
    rcases he with rfl | he
    · rcases cleanData_shape e ty tm now with ⟨_, cd, hcl⟩ | ⟨hko, _⟩
      · refine ⟨buildNewExpense e cd pid sy sm now, ?_, ?_, ?_⟩
        · unfold processExpensePure
          simp only [hdup, Bool.false_eq_true, if_false, hcl]
          rw [List.mem_append]
          left
          simp
        · have := (cleanData_ok_fields e ty tm now cd hcl).1
          simpa [buildNewExpense] using this
        · have := (cleanData_ok_fields e ty tm now cd hcl).2.1
          simpa [buildNewExpense] using this
      · rw [hok] at hko
        cases hko
    · obtain ⟨x, hx, h1, h2⟩ := ih he
      exact ⟨x, by rw [List.mem_append]; exact Or.inr hx, h1, h2⟩

theorem PropResult.add_created (a b : PropResult) :
    (a.add b).created = a.created + b.created := rfl

theorem PropResult.add_skipped (a b : PropResult) :
    (a.add b).skipped = a.skipped + b.skipped := rfl

theorem processExpensePure_head_dup (pid : String) (sy sm ty tm : Int) (now : String)
    (existing : List ExpenseData) (e : ExpenseData) (hd : isDuplicate existing e = true) :
    processExpensePure pid sy sm ty tm now existing (⟨0, 0, []⟩, []) e = (⟨0, 1, []⟩, []) := by
  unfold processExpensePure
  simp [hd]

theorem processExpensePure_head_err (pid : String) (sy sm ty tm : Int) (now : String)
    (existing : List ExpenseData) (e : ExpenseData) (hd : isDuplicate existing e = false)
    (hko : cleanOk e = false) :
    processExpensePure pid sy sm ty tm now existing (⟨0, 0, []⟩, []) e
      = (⟨0, 0, [⟨"expense", pid, e.id, some (jsOrStr e.description "Sin descripción"),
          "Invalid time value"⟩]⟩, []) := by
  rcases cleanData_shape e ty tm now with ⟨hok, _, _⟩ | ⟨_, hcl⟩
  · rw [hok] at hko; cases hko
  · unfold processExpensePure
    simp [hd, hcl]

theorem processExpensePure_head_ok (pid : String) (sy sm ty tm : Int) (now : String)
    (existing : List ExpenseData) (e : ExpenseData) (hd : isDuplicate existing e = false)
    (hok : cleanOk e = true) :
    ∃ cd, _cleanDataForNewPeriod e ty tm now = Except.ok cd
      ∧ processExpensePure pid sy sm ty tm now existing (⟨0, 0, []⟩, []) e
        = (⟨1, 0, []⟩, [buildNewExpense e cd pid sy sm now]) := by
  rcases cleanData_shape e ty tm now with ⟨_, cd, hcl⟩ | ⟨hko, _⟩
  · refine ⟨cd, hcl, ?_⟩
    unfold processExpensePure
    simp [hd, hcl]
  · rw [hok] at hko; cases hko

theorem pureGen_rerun (pid : String) (sy sm ty tm : Int) (now1 now2 : String)
    (ex1 ex2 : List ExpenseData) (R : List ExpenseData)
    (H : ∀ e ∈ R, (isDuplicate ex1 e || cleanOk e) = true → isDuplicate ex2 e = true) :
    (pureGen pid sy sm ty tm now2 ex2 R).1.created = 0
    ∧ (pureGen pid sy sm ty tm now2 ex2 R).2 = []
    ∧ (pureGen pid sy sm ty tm now1 ex1 R).1.created
        + (pureGen pid sy sm ty tm now1 ex1 R).1.skipped
      ≤ (pureGen pid sy sm ty tm now2 ex2 R).1.skipped := by
  induction R with
  | nil => exact ⟨rfl, rfl, Nat.le_refl 0⟩
  | cons e R ih =>
    obtain ⟨ih1, ih2, ih3⟩ := ih (fun x hx hc => H x (List.mem_cons_of_mem _ hx) hc)
    simp only [pureGen_cons]
    by_cases hd1 : isDuplicate ex1 e = true
    · have hd2 : isDuplicate ex2 e = true := H e (List.mem_cons_self _ _) (by simp [hd1])
      rw [processExpensePure_head_dup pid sy sm ty tm now1 ex1 e hd1,
          processExpensePure_head_dup pid sy sm ty tm now2 ex2 e hd2]
      refine ⟨?_, ?_, ?_⟩
      · simp [PropResult.add_created, ih1]
      · simp [ih2]
      · simp only [PropResult.add_created, PropResult.add_skipped]
        omega
    · have hd1f : isDuplicate ex1 e = false := Bool.eq_false_iff.mpr hd1
      by_cases hok : cleanOk e = true
      · have hd2 : isDuplicate ex2 e = true := H e (List.mem_cons_self _ _) (by simp [hok])
        obtain ⟨cd, hcl, hstep⟩ :=
          processExpensePure_head_ok pid sy sm ty tm now1 ex1 e hd1f hok
        rw [hstep, processExpensePure_head_dup pid sy sm ty tm now2 ex2 e hd2]
        refine ⟨?_, ?_, ?_⟩
        · simp [PropResult.add_created, ih1]
        · simp [ih2]
        · simp only [PropResult.add_created, PropResult.add_skipped]
          omega
      · have hokf : cleanOk e = false := Bool.eq_false_iff.mpr hok
        rw [processExpensePure_head_err pid sy sm ty tm now1 ex1 e hd1f hokf]
        by_cases hd2 : isDuplicate ex2 e = true
        · rw [processExpensePure_head_dup pid sy sm ty tm now2 ex2 e hd2]
          refine ⟨?_, ?_, ?_⟩
          · simp [PropResult.add_created, ih1]
          · simp [ih2]
          · simp only [PropResult.add_created, PropResult.add_skipped]
            omega
        · have hd2f : isDuplicate ex2 e = false := Bool.eq_false_iff.mpr hd2
          rw [processExpensePure_head_err pid sy sm ty tm now2 ex2 e hd2f hokf]
          refine ⟨?_, ?_, ?_⟩
          · simp [PropResult.add_created, ih1]
          · simp [ih2]
          · simp only [PropResult.add_created, PropResult.add_skipped]
            omega

theorem getExpenses_congr (s1 s2 : Store) (pid : String) (y m : Int)
    (h : getCol s1 pid (expensesColKey y m) = getCol s2 pid (expensesColKey y m)) :
    getExpenses s1 pid y m = getExpenses s2 pid y m := by
  unfold getExpenses
  rw [h]

theorem genExpensesSpec_src_empty (st : Store) (pid : String) (sy sm ty tm : Int)
    (dr : Bool) (now : String) (h1 : (getExpenses st pid sy sm).isEmpty = true) :
    genExpensesSpec st pid sy sm ty tm dr now = (⟨0, 0, []⟩, st) := by
  unfold genExpensesSpec
  rw [if_pos h1]

theorem genExpensesSpec_rec_empty (st : Store) (pid : String) (sy sm ty tm : Int)
    (dr : Bool) (now : String)
    (h1 : (getExpenses st pid sy sm).isEmpty = false)
    (h2 : ((getExpenses st pid sy sm).filter
        (fun e => decide (e.isRecurring = some true))).isEmpty = true) :
    genExpensesSpec st pid sy sm ty tm dr now = (⟨0, 0, []⟩, st) := by
  unfold genExpensesSpec
  rw [if_neg (by simp [h1]), if_pos h2]

theorem genExpensesSpec_main (st : Store) (pid : String) (sy sm ty tm : Int)
    (dr : Bool) (now : String)
    (h1 : (getExpenses st pid sy sm).isEmpty = false)
    (h2 : ((getExpenses st pid sy sm).filter
        (fun e => decide (e.isRecurring = some true))).isEmpty = false) :
    genExpensesSpec st pid sy sm ty tm dr now
      = ((pureGen pid sy sm ty tm now (getExpenses st pid ty tm)
            ((getExpenses st pid sy sm).filter (fun e => decide (e.isRecurring = some true)))).1,
         if dr then st
         else appendItems st pid (expensesColKey ty tm)
           (pureGen pid sy sm ty tm now (getExpenses st pid ty tm)
             ((getExpenses st pid sy sm).filter
               (fun e => decide (e.isRecurring = some true)))).2) := by
  unfold genExpensesSpec
  rw [if_neg (by simp [h1]), if_neg (by simp [h2])]

theorem genExpensesSpec_dry_store (st : Store) (pid : String) (sy sm ty tm : Int)
    (now : String) :
    (genExpensesSpec st pid sy sm ty tm true now).2 = st := by
  rcases h1 : (getExpenses st pid sy sm).isEmpty with _ | _
  · rcases h2 : ((getExpenses st pid sy sm).filter
        (fun e => decide (e.isRecurring = some true))).isEmpty with _ | _
    · rw [genExpensesSpec_main st pid sy sm ty tm true now h1 h2]
      simp
    · rw [genExpensesSpec_rec_empty st pid sy sm ty tm true now h1 h2]
  · rw [genExpensesSpec_src_empty st pid sy sm ty tm true now h1]

theorem genExpensesSpec_frame (st : Store) (pid : String) (sy sm ty tm : Int)
    (dr : Bool) (now : String) (pid2 key2 : String)
    (h : ¬ ((pid2, key2) : String × String) = (pid, expensesColKey ty tm)) :
    getCol (genExpensesSpec st pid sy sm ty tm dr now).2 pid2 key2
      = getCol st pid2 key2 := by
  rcases h1 : (getExpenses st pid sy sm).isEmpty with _ | _
  · rcases h2 : ((getExpenses st pid sy sm).filter
        (fun e => decide (e.isRecurring = some true))).isEmpty with _ | _
    · rw [genExpensesSpec_main st pid sy sm ty tm dr now h1 h2]
      rcases dr with _ | _
      · simp only [Bool.false_eq_true, if_false]
        exact getCol_appendItems_ne _ _ _ _ _ _ h
      · rfl
    · rw [genExpensesSpec_rec_empty st pid sy sm ty tm dr now h1 h2]
  · rw [genExpensesSpec_src_empty st pid sy sm ty tm dr now h1]

theorem genExpensesSpec_flags (st : Store) (pid : String) (sy sm ty tm : Int)
    (dr : Bool) (now : String) (pid2 key2 : String) :
    (getCol (genExpensesSpec st pid sy sm ty tm dr now).2 pid2 key2).readFails
      = (getCol st pid2 key2).readFails := by
  by_cases h : ((pid2, key2) : String × String) = (pid, expensesColKey ty tm)
  · obtain ⟨h1, h2⟩ := Prod.mk.injEq .. ▸ h
    subst h1
    subst h2
    rcases h1 : (getExpenses st pid2 sy sm).isEmpty with _ | _
    · rcases h2 : ((getExpenses st pid2 sy sm).filter
          (fun e => decide (e.isRecurring = some true))).isEmpty with _ | _
      · rw [genExpensesSpec_main st pid2 sy sm ty tm dr now h1 h2]
        rcases dr with _ | _
        · simp only [Bool.false_eq_true, if_false]
          rw [getCol_appendItems_same]
        · rfl
      · rw [genExpensesSpec_rec_empty st pid2 sy sm ty tm dr now h1 h2]
    · rw [genExpensesSpec_src_empty st pid2 sy sm ty tm dr now h1]
  · rw [genExpensesSpec_frame st pid sy sm ty tm dr now pid2 key2 h]

theorem genExpensesSpec_properties (st : Store) (pid : String) (sy sm ty tm : Int)
    (dr : Bool) (now : String) :
    (genExpensesSpec st pid sy sm ty tm dr now).2.properties = st.properties := by
  rcases h1 : (getExpenses st pid sy sm).isEmpty with _ | _
  · rcases h2 : ((getExpenses st pid sy sm).filter
        (fun e => decide (e.isRecurring = some true))).isEmpty with _ | _
    · rw [genExpensesSpec_main st pid sy sm ty tm dr now h1 h2]
      rcases dr with _ | _
      · simp only [Bool.false_eq_true, if_false]
        exact properties_appendItems _ _ _ _
      · rfl
    · rw [genExpensesSpec_rec_empty st pid sy sm ty tm dr now h1 h2]
  · rw [genExpensesSpec_src_empty st pid sy sm ty tm dr now h1]

theorem genExpensesSpec_selfskip (st : Store) (pid : String) (sy sm ty tm : Int)
    (dr : Bool) (now : String)
    (hk : expensesColKey sy sm = expensesColKey ty tm) :
    genExpensesSpec st pid sy sm ty tm dr now
      = (⟨0, recurringCount st pid sy sm, []⟩, st) := by
  have hsame : getExpenses st pid ty tm = getExpenses st pid sy sm := by
    unfold getExpenses
    rw [hk]
  rcases h1 : (getExpenses st pid sy sm).isEmpty with _ | _
  · rcases h2 : ((getExpenses st pid sy sm).filter
        (fun e => decide (e.isRecurring = some true))).isEmpty with _ | _
    · rw [genExpensesSpec_main st pid sy sm ty tm dr now h1 h2, hsame]
      have hall : ∀ e ∈ (getExpenses st pid sy sm).filter
          (fun e => decide (e.isRecurring = some true)),
          isDuplicate (getExpenses st pid sy sm) e = true := by
        intro e he
        exact isDuplicate_self _ _ (List.mem_of_mem_filter he)
      rw [pureGen_all_dup _ _ _ _ _ _ _ _ hall]
      unfold recurringCount
      rcases dr with _ | _ <;> simp [appendItems_nil]
    · rw [genExpensesSpec_rec_empty st pid sy sm ty tm dr now h1 h2]
      unfold recurringCount
      rw [List.isEmpty_iff] at h2
      rw [h2]
      rfl
  · rw [genExpensesSpec_src_empty st pid sy sm ty tm dr now h1]
    unfold recurringCount
    rw [List.isEmpty_iff] at h1
    rw [h1]
    rfl

theorem genExpensesSpec_rerun (st st2 : Store) (pid : String) (sy sm ty tm : Int)
    (now1 now2 : String)
    (hrt : (getCol st pid (expensesColKey ty tm)).readFails = false)
    (hs : getCol st2 pid (expensesColKey sy sm) = getCol st pid (expensesColKey sy sm))
    (ht : getCol st2 pid (expensesColKey ty tm)
        = getCol (genExpensesSpec st pid sy sm ty tm false now1).2 pid
            (expensesColKey ty tm)) :
    (genExpensesSpec st2 pid sy sm ty tm false now2).2 = st2
    ∧ (genExpensesSpec st2 pid sy sm ty tm false now2).1.created = 0
    ∧ (genExpensesSpec st pid sy sm ty tm false now1).1.created
        + (genExpensesSpec st pid sy sm ty tm false now1).1.skipped
      ≤ (genExpensesSpec st2 pid sy sm ty tm false now2).1.skipped := by
  have hsrc : getExpenses st2 pid sy sm = getExpenses st pid sy sm :=
    getExpenses_congr _ _ _ _ _ hs
  rcases h1 : (getExpenses st pid sy sm).isEmpty with _ | _
  case true =>
    rw [genExpensesSpec_src_empty st pid sy sm ty tm false now1 h1,
        genExpensesSpec_src_empty st2 pid sy sm ty tm false now2 (by rw [hsrc]; exact h1)]
    exact ⟨rfl, rfl, Nat.le_refl 0⟩
  case false =>
  rcases h2 : ((getExpenses st pid sy sm).filter
      (fun e => decide (e.isRecurring = some true))).isEmpty with _ | _
  case true =>
    rw [genExpensesSpec_rec_empty st pid sy sm ty tm false now1 h1 h2,
        genExpensesSpec_rec_empty st2 pid sy sm ty tm false now2
          (by rw [hsrc]; exact h1) (by rw [hsrc]; exact h2)]
    exact ⟨rfl, rfl, Nat.le_refl 0⟩
  case false =>
  have hmain1 := genExpensesSpec_main st pid sy sm ty tm false now1 h1 h2
  have hmain2 := genExpensesSpec_main st2 pid sy sm ty tm false now2
    (by rw [hsrc]; exact h1) (by rw [hsrc]; exact h2)
  rw [hsrc] at hmain2
  have hpid : ¬ pid = "" := by
    intro h
    have hempty : getExpenses st pid sy sm = [] := by
      unfold getExpenses
      rw [if_pos h]
    rw [hempty] at h1
    simp at h1
  have hex1 : getExpenses st pid ty tm
      = (getCol st pid (expensesColKey ty tm)).docs.map readDoc := by
    unfold getExpenses
    rw [if_neg hpid]
    simp only [hrt, Bool.false_eq_true, if_false]
  have htgtcol : getCol st2 pid (expensesColKey ty tm)
      = { docs := (getCol st pid (expensesColKey ty tm)).docs
            ++ mkDocs (getCol st pid (expensesColKey ty tm)).docs.length
                 (pureGen pid sy sm ty tm now1 (getExpenses st pid ty tm)
                   ((getExpenses st pid sy sm).filter
                     (fun e => decide (e.isRecurring = some true)))).2,
          readFails := false } := by
    rw [ht, hmain1]
    simp only [Bool.false_eq_true, if_false]
    rw [getCol_appendItems_same, hrt]
  have hex2 : getExpenses st2 pid ty tm
      = getExpenses st pid ty tm
        ++ (mkDocs (getCol st pid (expensesColKey ty tm)).docs.length
              (pureGen pid sy sm ty tm now1 (getExpenses st pid ty tm)
                ((getExpenses st pid sy sm).filter
                  (fun e => decide (e.isRecurring = some true)))).2).map readDoc := by
    have hex2a : getExpenses st2 pid ty tm
        = (getCol st2 pid (expensesColKey ty tm)).docs.map readDoc := by
      unfold getExpenses
      rw [if_neg hpid, htgtcol]
      rfl
    rw [hex2a, htgtcol]
    simp only
    rw [List.map_append, ← hex1]
  have H : ∀ e ∈ (getExpenses st pid sy sm).filter
      (fun e => decide (e.isRecurring = some true)),
      (isDuplicate (getExpenses st pid ty tm) e || cleanOk e) = true →
      isDuplicate (getExpenses st2 pid ty tm) e = true := by
    intro e he hc
    rw [hex2, isDuplicate_append]
    rw [Bool.or_eq_true] at hc ⊢
    rcases hc with hc | hc
    · exact Or.inl hc
    · by_cases hd : isDuplicate (getExpenses st pid ty tm) e = true
      · exact Or.inl hd
      · right
        obtain ⟨x, hx, hxd, hxa⟩ := pureGen_item_exists pid sy sm ty tm now1
          (getExpenses st pid ty tm) _ e he (Bool.eq_false_iff.mpr hd) hc
        obtain ⟨sd, hsd, hsdd⟩ := mkDocs_mem_data
          (getCol st pid (expensesColKey ty tm)).docs.length _ x hx
        refine isDuplicate_of_mem_match _ _ (readDoc sd)
          (List.mem_map_of_mem _ hsd) ?_ ?_
        · rw [readDoc_description, hsdd, hxd]
        · rw [readDoc_amount, hsdd, hxa]
  obtain ⟨hc2, hi2, hsk⟩ := pureGen_rerun pid sy sm ty tm now1 now2
    (getExpenses st pid ty tm) (getExpenses st2 pid ty tm) _ H
  refine ⟨?_, ?_, ?_⟩
  · rw [hmain2]
    simp only [Bool.false_eq_true, if_false]
    rw [hi2, appendItems_nil]
  · rw [hmain2]
    exact hc2
  · rw [hmain1, hmain2]
    exact hsk

theorem foldl_processPropertySpec_acc (sy sm ty tm : Int) (dr : Bool) (now : String)
    (props : List PropertyRec) :
    ∀ (acc : PropResult × Nat × Store),
      props.foldl (processPropertySpec sy sm ty tm dr now) acc
        = (acc.1.add (props.foldl (processPropertySpec sy sm ty tm dr now)
              (⟨0, 0, []⟩, 0, acc.2.2)).1,
           acc.2.1 + (props.foldl (processPropertySpec sy sm ty tm dr now)
              (⟨0, 0, []⟩, 0, acc.2.2)).2.1,
           (props.foldl (processPropertySpec sy sm ty tm dr now)
              (⟨0, 0, []⟩, 0, acc.2.2)).2.2) := by
  induction props with
  | nil =>
    intro acc
    simp [PropResult.add_zero_right]
  | cons p ps ih =>
    intro acc
    rw [List.foldl_cons, List.foldl_cons]
    rw [ih (processPropertySpec sy sm ty tm dr now acc p)]
    rw [ih (processPropertySpec sy sm ty tm dr now (⟨0, 0, []⟩, 0, acc.2.2) p)]
    simp only [processPropertySpec, PropResult.zero_add_left]
    rw [PropResult.add_assoc]
    simp [Nat.add_assoc]

theorem foldl_props_frame (sy sm ty tm : Int) (dr : Bool) (now : String)
    (props : List PropertyRec) :
    ∀ (acc : PropResult × Nat × Store) (pid key : String),
      (¬ key = expensesColKey ty tm ∨ ∀ p ∈ props, ¬ p.id = pid) →
      getCol (props.foldl (processPropertySpec sy sm ty tm dr now) acc).2.2 pid key
        = getCol acc.2.2 pid key := by
  induction props with
  | nil => intro acc pid key _; rfl
  | cons p ps ih =>
    intro acc pid key hcond
    rw [List.foldl_cons]
    have hstep : getCol (genExpensesSpec acc.2.2 p.id sy sm ty tm dr now).2 pid key
        = getCol acc.2.2 pid key := by
      apply genExpensesSpec_frame
      intro hpair
      obtain ⟨hpe, hke⟩ := Prod.mk.injEq .. ▸ hpair
      rcases hcond with h | h
      · exact h hke
      · exact h p (List.mem_cons_self _ _) hpe.symm
    have hrest := ih (processPropertySpec sy sm ty tm dr now acc p) pid key
      (by
        rcases hcond with h | h
        · exact Or.inl h
        · exact Or.inr (fun q hq => h q (List.mem_cons_of_mem _ hq)))
    rw [hrest]
    exact hstep

theorem foldl_props_flags (sy sm ty tm : Int) (dr : Bool) (now : String)
    (props : List PropertyRec) :
    ∀ (acc : PropResult × Nat × Store) (pid key : String),
      (getCol (props.foldl (processPropertySpec sy sm ty tm dr now) acc).2.2 pid key).readFails
        = (getCol acc.2.2 pid key).readFails := by
  induction props with
  | nil => intro acc pid key; rfl
  | cons p ps ih =>
    intro acc pid key
    rw [List.foldl_cons]
    rw [ih (processPropertySpec sy sm ty tm dr now acc p) pid key]
    exact genExpensesSpec_flags _ _ _ _ _ _ _ _ _ _

theorem foldl_props_properties (sy sm ty tm : Int) (dr : Bool) (now : String)
    (props : List PropertyRec) :
    ∀ (acc : PropResult × Nat × Store),
      (props.foldl (processPropertySpec sy sm ty tm dr now) acc).2.2.properties
        = acc.2.2.properties := by
  induction props with
  | nil => intro acc; rfl
  | cons p ps ih =>
    intro acc
    rw [List.foldl_cons]
    rw [ih (processPropertySpec sy sm ty tm dr now acc p)]
    exact genExpensesSpec_properties _ _ _ _ _ _ _ _

theorem foldl_props_count (sy sm ty tm : Int) (dr : Bool) (now : String)
    (props : List PropertyRec) :
    ∀ (acc : PropResult × Nat × Store),
      (props.foldl (processPropertySpec sy sm ty tm dr now) acc).2.1
        = acc.2.1 + props.length := by
  induction props with
  | nil => intro acc; simp
  | cons p ps ih =>
    intro acc
    rw [List.foldl_cons]
    rw [ih (processPropertySpec sy sm ty tm dr now acc p)]
    simp only [processPropertySpec]
    simp [List.length_cons]
    omega

theorem foldl_props_selfskip (sy sm ty tm : Int) (dr : Bool) (now : String)
    (hkeq : expensesColKey sy sm = expensesColKey ty tm) (props : List PropertyRec) :
    ∀ st : Store,
      props.foldl (processPropertySpec sy sm ty tm dr now) (⟨0, 0, []⟩, 0, st)
        = (⟨0, recurringTotal st sy sm props, []⟩, props.length, st) := by
  induction props with
  | nil => intro st; rfl
  | cons p ps ih =>
    intro st
    rw [List.foldl_cons]
    have e1 : processPropertySpec sy sm ty tm dr now (⟨0, 0, []⟩, 0, st) p
        = (PropResult.add ⟨0, 0, []⟩ ⟨0, recurringCount st p.id sy sm, []⟩, 1, st) := by
      unfold processPropertySpec
      rw [genExpensesSpec_selfskip st p.id sy sm ty tm dr now hkeq]
    rw [e1, foldl_processPropertySpec_acc]
    simp only
    rw [ih st]
    simp [PropResult.add, recurringTotal, List.length_cons]
    omega

theorem foldl_props_idempotent (sy sm ty tm : Int) (now1 now2 : String) :
    ∀ (props : List PropertyRec), (props.map PropertyRec.id).Nodup →
    ∀ st : Store, (∀ pid key, (getCol st pid key).readFails = false) →
      ((props.foldl (processPropertySpec sy sm ty tm false now2)
          (⟨0, 0, []⟩, 0,
           (props.foldl (processPropertySpec sy sm ty tm false now1)
             (⟨0, 0, []⟩, 0, st)).2.2)).2.2
        = (props.foldl (processPropertySpec sy sm ty tm false now1)
            (⟨0, 0, []⟩, 0, st)).2.2)
      ∧ (props.foldl (processPropertySpec sy sm ty tm false now2)
          (⟨0, 0, []⟩, 0,
           (props.foldl (processPropertySpec sy sm ty tm false now1)
             (⟨0, 0, []⟩, 0, st)).2.2)).1.created = 0
      ∧ (props.foldl (processPropertySpec sy sm ty tm false now1)
            (⟨0, 0, []⟩, 0, st)).1.created
          + (props.foldl (processPropertySpec sy sm ty tm false now1)
              (⟨0, 0, []⟩, 0, st)).1.skipped
        ≤ (props.foldl (processPropertySpec sy sm ty tm false now2)
            (⟨0, 0, []⟩, 0,
             (props.foldl (processPropertySpec sy sm ty tm false now1)
               (⟨0, 0, []⟩, 0, st)).2.2)).1.skipped := by
  intro props
  induction props with
  | nil =>
    intro _ st _
    exact ⟨rfl, rfl, Nat.le_refl 0⟩
  | cons p ps ih =>
    intro hnodup st hflags
    have hnodup' : (p.id :: ps.map PropertyRec.id).Nodup := by simpa using hnodup
    have hpnotin : p.id ∉ ps.map PropertyRec.id := (List.nodup_cons.mp hnodup').1
    have htail_nodup : (ps.map PropertyRec.id).Nodup := (List.nodup_cons.mp hnodup').2
    have hqcond : ∀ q ∈ ps, ¬ q.id = p.id := by
      intro q hq he
      exact hpnotin (he ▸ List.mem_map_of_mem PropertyRec.id hq)
    have hflags' : ∀ pid key,
        (getCol (genExpensesSpec st p.id sy sm ty tm false now1).2 pid key).readFails
          = false := by
      intro pid key
      rw [genExpensesSpec_flags]
      exact hflags pid key
    -- run-1 decomposition
    have hF1 : (p :: ps).foldl (processPropertySpec sy sm ty tm false now1)
        (⟨0, 0, []⟩, 0, st)
        = ((PropResult.add ⟨0, 0, []⟩
              (genExpensesSpec st p.id sy sm ty tm false now1).1).add
             (ps.foldl (processPropertySpec sy sm ty tm false now1)
               (⟨0, 0, []⟩, 0, (genExpensesSpec st p.id sy sm ty tm false now1).2)).1,
           1 + (ps.foldl (processPropertySpec sy sm ty tm false now1)
               (⟨0, 0, []⟩, 0, (genExpensesSpec st p.id sy sm ty tm false now1).2)).2.1,
           (ps.foldl (processPropertySpec sy sm ty tm false now1)
               (⟨0, 0, []⟩, 0, (genExpensesSpec st p.id sy sm ty tm false now1).2)).2.2) := by
      rw [List.foldl_cons, foldl_processPropertySpec_acc]
      rfl
    -- frame facts about the store after run 1
    have hskey : getCol (ps.foldl (processPropertySpec sy sm ty tm false now1)
          (⟨0, 0, []⟩, 0, (genExpensesSpec st p.id sy sm ty tm false now1).2)).2.2
          p.id (expensesColKey sy sm)
        = getCol st p.id (expensesColKey sy sm) := by
      rw [foldl_props_frame sy sm ty tm false now1 ps _ _ _ (Or.inr hqcond)]
      by_cases hkk : expensesColKey sy sm = expensesColKey ty tm
      · rw [genExpensesSpec_selfskip st p.id sy sm ty tm false now1 hkk]
      · apply genExpensesSpec_frame
        intro hpair
        obtain ⟨_, hke⟩ := Prod.mk.injEq .. ▸ hpair
        exact hkk hke
    have htkey : getCol (ps.foldl (processPropertySpec sy sm ty tm false now1)
          (⟨0, 0, []⟩, 0, (genExpensesSpec st p.id sy sm ty tm false now1).2)).2.2
          p.id (expensesColKey ty tm)
        = getCol (genExpensesSpec st p.id sy sm ty tm false now1).2 p.id
            (expensesColKey ty tm) := by
      rw [foldl_props_frame sy sm ty tm false now1 ps _ _ _ (Or.inr hqcond)]
    obtain ⟨hr2store, hr2created, hr2skip⟩ :=
      genExpensesSpec_rerun st
        (ps.foldl (processPropertySpec sy sm ty tm false now1)
          (⟨0, 0, []⟩, 0, (genExpensesSpec st p.id sy sm ty tm false now1).2)).2.2
        p.id sy sm ty tm now1 now2
        (hflags p.id (expensesColKey ty tm)) hskey htkey
    obtain ⟨ihstore, ihcreated, ihskip⟩ :=
      ih htail_nodup (genExpensesSpec st p.id sy sm ty tm false now1).2 hflags'
    -- run-2 decomposition
    have hF2 : (p :: ps).foldl (processPropertySpec sy sm ty tm false now2)
        (⟨0, 0, []⟩, 0,
         (ps.foldl (processPropertySpec sy sm ty tm false now1)
           (⟨0, 0, []⟩, 0, (genExpensesSpec st p.id sy sm ty tm false now1).2)).2.2)
        = ((PropResult.add ⟨0, 0, []⟩
              (genExpensesSpec
                (ps.foldl (processPropertySpec sy sm ty tm false now1)
                  (⟨0, 0, []⟩, 0, (genExpensesSpec st p.id sy sm ty tm false now1).2)).2.2
                p.id sy sm ty tm false now2).1).add
             (ps.foldl (processPropertySpec sy sm ty tm false now2)
               (⟨0, 0, []⟩, 0,
                (genExpensesSpec
                  (ps.foldl (processPropertySpec sy sm ty tm false now1)
                    (⟨0, 0, []⟩, 0,
                     (genExpensesSpec st p.id sy sm ty tm false now1).2)).2.2
                  p.id sy sm ty tm false now2).2)).1,
           1 + (ps.foldl (processPropertySpec sy sm ty tm false now2)
               (⟨0, 0, []⟩, 0,
                (genExpensesSpec
                  (ps.foldl (processPropertySpec sy sm ty tm false now1)
                    (⟨0, 0, []⟩, 0,
                     (genExpensesSpec st p.id sy sm ty tm false now1).2)).2.2
                  p.id sy sm ty tm false now2).2)).2.1,
           (ps.foldl (processPropertySpec sy sm ty tm false now2)
               (⟨0, 0, []⟩, 0,
                (genExpensesSpec
                  (ps.foldl (processPropertySpec sy sm ty tm false now1)
                    (⟨0, 0, []⟩, 0,
                     (genExpensesSpec st p.id sy sm ty tm false now1).2)).2.2
                  p.id sy sm ty tm false now2).2)).2.2) := by
      rw [List.foldl_cons, foldl_processPropertySpec_acc]
      rfl
    rw [hF1, hF2, hr2store]
    refine ⟨?_, ?_, ?_⟩
    · simp only
      exact ihstore
    · simp only [PropResult.add_created]
      rw [hr2created, ihcreated]
    · simp only [PropResult.add_created, PropResult.add_skipped]
      have h1 := hr2skip
      have h2 := ihskip
      omega

theorem processProperty_eq_spec (sy sm ty tm : Int) (dr : Bool) (now : String) :
    processProperty sy sm ty tm dr now = processPropertySpec sy sm ty tm dr now := by
  funext acc p
  unfold processProperty processPropertySpec
  rw [generateRecurring_eq_spec]

theorem generateRecurringRecords_empty (st : Store) (opts : GenOptions)
    (tY tM : Int) (now : String) (h : st.properties.isEmpty = true) :
    generateRecurringRecords st opts tY tM now
      = ({ success := false, error := some "No se encontraron propiedades" }, st) := by
  unfold generateRecurringRecords _getAllProperties
  rw [if_pos h]

theorem generateRecurringRecords_nonempty (st : Store) (opts : GenOptions)
    (tY tM : Int) (now : String) (h : st.properties.isEmpty = false) :
    generateRecurringRecords st opts tY tM now
      = ({ success := true,
           expenses := some (st.properties.foldl
             (processPropertySpec (_calculateDates opts tY tM).sourceYear
               (_calculateDates opts tY tM).sourceMonth
               (_calculateDates opts tY tM).targetYear
               (_calculateDates opts tY tM).targetMonth opts.dryRun now)
             (⟨0, 0, []⟩, 0, st)).1,
           summary := some ⟨(_calculateDates opts tY tM).sourceYear,
             (_calculateDates opts tY tM).sourceMonth,
             (_calculateDates opts tY tM).targetYear,
             (_calculateDates opts tY tM).targetMonth,
             opts.dryRun, now,
             (st.properties.foldl
               (processPropertySpec (_calculateDates opts tY tM).sourceYear
                 (_calculateDates opts tY tM).sourceMonth
                 (_calculateDates opts tY tM).targetYear
                 (_calculateDates opts tY tM).targetMonth opts.dryRun now)
               (⟨0, 0, []⟩, 0, st)).2.1,
             (st.properties.foldl
               (processPropertySpec (_calculateDates opts tY tM).sourceYear
                 (_calculateDates opts tY tM).sourceMonth
                 (_calculateDates opts tY tM).targetYear
                 (_calculateDates opts tY tM).targetMonth opts.dryRun now)
               (⟨0, 0, []⟩, 0, st)).1.created,
             (st.properties.foldl
               (processPropertySpec (_calculateDates opts tY tM).sourceYear
                 (_calculateDates opts tY tM).sourceMonth
                 (_calculateDates opts tY tM).targetYear
                 (_calculateDates opts tY tM).targetMonth opts.dryRun now)
               (⟨0, 0, []⟩, 0, st)).1.skipped,
             (st.properties.foldl
               (processPropertySpec (_calculateDates opts tY tM).sourceYear
                 (_calculateDates opts tY tM).sourceMonth
                 (_calculateDates opts tY tM).targetYear
                 (_calculateDates opts tY tM).targetMonth opts.dryRun now)
               (⟨0, 0, []⟩, 0, st)).1.errors.length⟩ },
         (st.properties.foldl
           (processPropertySpec (_calculateDates opts tY tM).sourceYear
             (_calculateDates opts tY tM).sourceMonth
             (_calculateDates opts tY tM).targetYear
             (_calculateDates opts tY tM).targetMonth opts.dryRun now)
           (⟨0, 0, []⟩, 0, st)).2.2) := by
  simp only [generateRecurringRecords, _getAllProperties, processProperty_eq_spec, h,
    Bool.false_eq_true, if_false]

/-- Claim C1: running `generate` twice in sequence for the same source/target
period pair (fault-free store reads, distinct property ids, not a dry run)
leaves the store unchanged by the second run, which creates no new item: every
item created by the first run is duplicate-detected by its (description, amount)
pair within the same property and target period, so the second run's skipped
count is at least the first run's created + skipped. -/
theorem generate_sequential_idempotent (s : Store) (opts : GenOptions) (tY tM : Int)
    (now1 now2 : String)
    (hnodup : (s.properties.map PropertyRec.id).Nodup)
    (hreads : ∀ pid key, (getCol s pid key).readFails = false)
    (hdry : opts.dryRun = false) :
    (generateRecurringRecords (generateRecurringRecords s opts tY tM now1).2 opts
        tY tM now2).2
      = (generateRecurringRecords s opts tY tM now1).2
    ∧ resCreated (generateRecurringRecords (generateRecurringRecords s opts tY tM now1).2
        opts tY tM now2).1 = 0
    ∧ resCreated (generateRecurringRecords s opts tY tM now1).1
        + resSkipped (generateRecurringRecords s opts tY tM now1).1
      ≤ resSkipped (generateRecurringRecords (generateRecurringRecords s opts tY tM now1).2
          opts tY tM now2).1 := by
  rcases hp : s.properties.isEmpty with _ | _
  case false =>
    have hrun1 := generateRecurringRecords_nonempty s opts tY tM now1 hp
    rw [hdry] at hrun1
    have hst1 : (generateRecurringRecords s opts tY tM now1).2
        = (s.properties.foldl
            (processPropertySpec (_calculateDates opts tY tM).sourceYear
              (_calculateDates opts tY tM).sourceMonth
              (_calculateDates opts tY tM).targetYear
              (_calculateDates opts tY tM).targetMonth false now1)
            (⟨0, 0, []⟩, 0, s)).2.2 := by
      rw [hrun1]
    have hprops1 : (generateRecurringRecords s opts tY tM now1).2.properties
        = s.properties := by
      rw [hst1]
      exact foldl_props_properties _ _ _ _ _ _ _ _
    have hp2 : (generateRecurringRecords s opts tY tM now1).2.properties.isEmpty
        = false := by
      rw [hprops1]
      exact hp
    have hrun2 := generateRecurringRecords_nonempty
      (generateRecurringRecords s opts tY tM now1).2 opts tY tM now2 hp2
    rw [hdry] at hrun2
    rw [hprops1] at hrun2
    rw [hst1] at hrun2
    obtain ⟨hstore, hcreated, hskip⟩ := foldl_props_idempotent
      (_calculateDates opts tY tM).sourceYear (_calculateDates opts tY tM).sourceMonth
      (_calculateDates opts tY tM).targetYear (_calculateDates opts tY tM).targetMonth
      now1 now2 s.properties hnodup s hreads
    rw [hst1, hrun2]
    refine ⟨?_, ?_, ?_⟩
    · exact hstore
    · simp only [resCreated, Option.map_some, Option.getD_some]
      exact hcreated
    · rw [hrun1]
      simp only [resCreated, resSkipped, Option.map_some, Option.getD_some]
      exact hskip
  case true =>
    have hrun1 := generateRecurringRecords_empty s opts tY tM now1 hp
    rw [hrun1]
    have hrun2 := generateRecurringRecords_empty s opts tY tM now2 hp
    rw [hrun2]
    exact ⟨rfl, rfl, Nat.le_refl 0⟩

theorem readsOk_of_all (s : Store)
    (h : s.cols.all (fun e => e.2.readFails = false) = true) :
    ∀ pid key, (getCol s pid key).readFails = false := by
  intro pid key
  unfold getCol
  rcases hf : s.cols.find? (fun e => e.1 = (pid, key)) with _ | e
  · rw [hf]
  · rw [hf]
    have hmem := List.mem_of_find?_eq_some hf
    rw [List.all_eq_true] at h
    exact of_decide_eq_true (h e hmem)

theorem genExpensesSpec_result_congr (st1 st2 : Store) (pid : String) (sy sm ty tm : Int)
    (dr1 dr2 : Bool) (now : String)
    (h : ∀ key, getCol st1 pid key = getCol st2 pid key) :
    (genExpensesSpec st1 pid sy sm ty tm dr1 now).1
      = (genExpensesSpec st2 pid sy sm ty tm dr2 now).1 := by
  have hsrc : getExpenses st1 pid sy sm = getExpenses st2 pid sy sm :=
    getExpenses_congr _ _ _ _ _ (h _)
  have hex : getExpenses st1 pid ty tm = getExpenses st2 pid ty tm :=
    getExpenses_congr _ _ _ _ _ (h _)
  rcases h1 : (getExpenses st2 pid sy sm).isEmpty with _ | _
  case false =>
    rcases h2 : ((getExpenses st2 pid sy sm).filter
        (fun e => decide (e.isRecurring = some true))).isEmpty with _ | _
    case false =>
      rw [genExpensesSpec_main st1 pid sy sm ty tm dr1 now
            (by rw [hsrc]; exact h1) (by rw [hsrc]; exact h2),
          genExpensesSpec_main st2 pid sy sm ty tm dr2 now h1 h2]
      simp only
      rw [hsrc, hex]
    case true =>
      rw [genExpensesSpec_rec_empty st1 pid sy sm ty tm dr1 now
            (by rw [hsrc]; exact h1) (by rw [hsrc]; exact h2),
          genExpensesSpec_rec_empty st2 pid sy sm ty tm dr2 now h1 h2]
  case true =>
    rw [genExpensesSpec_src_empty st1 pid sy sm ty tm dr1 now (by rw [hsrc]; exact h1),
        genExpensesSpec_src_empty st2 pid sy sm ty tm dr2 now h1]

theorem foldl_props_dry_store (sy sm ty tm : Int) (now : String)
    (props : List PropertyRec) :
    ∀ (acc : PropResult × Nat × Store),
      (props.foldl (processPropertySpec sy sm ty tm true now) acc).2.2 = acc.2.2 := by
  induction props with
  | nil => intro acc; rfl
  | cons p ps ih =>
    intro acc
    rw [List.foldl_cons]
    rw [ih (processPropertySpec sy sm ty tm true now acc p)]
    exact genExpensesSpec_dry_store _ _ _ _ _ _ _

theorem foldl_props_dry_wet (sy sm ty tm : Int) (now : String) :
    ∀ (props : List PropertyRec), (props.map PropertyRec.id).Nodup →
    ∀ st s : Store, (∀ p ∈ props, ∀ key, getCol st p.id key = getCol s p.id key) →
      (props.foldl (processPropertySpec sy sm ty tm false now) (⟨0, 0, []⟩, 0, st)).1
        = (props.foldl (processPropertySpec sy sm ty tm true now) (⟨0, 0, []⟩, 0, s)).1 := by
  intro props
  induction props with
  | nil => intro _ st s _; rfl
  | cons p ps ih =>
    intro hnodup st s hagree
    have hnodup' : (p.id :: ps.map PropertyRec.id).Nodup := by simpa using hnodup
    have hpnotin : p.id ∉ ps.map PropertyRec.id := (List.nodup_cons.mp hnodup').1
    have htail_nodup : (ps.map PropertyRec.id).Nodup := (List.nodup_cons.mp hnodup').2
    have hqcond : ∀ q ∈ ps, ¬ q.id = p.id := by
      intro q hq he
      exact hpnotin (he ▸ List.mem_map_of_mem PropertyRec.id hq)
    have hhead : (genExpensesSpec st p.id sy sm ty tm false now).1
        = (genExpensesSpec s p.id sy sm ty tm true now).1 :=
      genExpensesSpec_result_congr st s p.id sy sm ty tm false true now
        (hagree p (List.mem_cons_self _ _))
    have hagree' : ∀ q ∈ ps, ∀ key,
        getCol (genExpensesSpec st p.id sy sm ty tm false now).2 q.id key
          = getCol s q.id key := by
      intro q hq key
      rw [genExpensesSpec_frame st p.id sy sm ty tm false now q.id key
        (by
          intro hpair
          obtain ⟨hpe, _⟩ := Prod.mk.injEq .. ▸ hpair
          exact hqcond q hq hpe)]
      exact hagree q (List.mem_cons_of_mem _ hq) key
    rw [List.foldl_cons, List.foldl_cons]
    rw [foldl_processPropertySpec_acc sy sm ty tm false now ps
        (processPropertySpec sy sm ty tm false now (⟨0, 0, []⟩, 0, st) p)]
    rw [foldl_processPropertySpec_acc sy sm ty tm true now ps
        (processPropertySpec sy sm ty tm true now (⟨0, 0, []⟩, 0, s) p)]
    simp only [processPropertySpec]
    rw [genExpensesSpec_dry_store s p.id sy sm ty tm now]
    rw [hhead]
    rw [ih htail_nodup (genExpensesSpec st p.id sy sm ty tm false now).2 s hagree']

/-- Claim C3: a `dryRun = true` run performs no writes (the store is returned
unchanged), yet reports exactly the same created/skipped/errors aggregate as a
`dryRun = false` run on the same starting state (property ids distinct). -/
theorem generate_dryRun_neutral (s : Store) (opts : GenOptions) (tY tM : Int)
    (now : String) (hnodup : (s.properties.map PropertyRec.id).Nodup) :
    (generateRecurringRecords s { opts with dryRun := true } tY tM now).2 = s
    ∧ (generateRecurringRecords s { opts with dryRun := true } tY tM now).1.expenses
      = (generateRecurringRecords s { opts with dryRun := false } tY tM now).1.expenses := by
  rcases hp : s.properties.isEmpty with _ | _
  case false =>
    have hrunD := generateRecurringRecords_nonempty s { opts with dryRun := true }
      tY tM now hp
    have hrunW := generateRecurringRecords_nonempty s { opts with dryRun := false }
      tY tM now hp
    have hdrD : ({ opts with dryRun := true } : GenOptions).dryRun = true := rfl
    have hdrW : ({ opts with dryRun := false } : GenOptions).dryRun = false := rfl
    rw [hdrD] at hrunD
    rw [hdrW] at hrunW
    have hdates : _calculateDates { opts with dryRun := true } tY tM
        = _calculateDates { opts with dryRun := false } tY tM := rfl
    constructor
    · rw [hrunD]
      exact foldl_props_dry_store _ _ _ _ _ _ _
    · rw [hrunD, hrunW]
      simp only
      rw [hdates]
      exact congrArg some (foldl_props_dry_wet _ _ _ _ _ s.properties hnodup s s
        (fun p _ key => rfl)).symm
  case true =>
    rw [generateRecurringRecords_empty s { opts with dryRun := true } tY tM now hp,
        generateRecurringRecords_empty s { opts with dryRun := false } tY tM now hp]
    exact ⟨rfl, rfl⟩

theorem mkDocs_data_mem (n : Nat) (items : List ExpenseData) (sd : StoredDoc)
    (h : sd ∈ mkDocs n items) : sd.data ∈ items := by
  induction items generalizing n with
  | nil => cases h
  | cons d ds ih =>
    rw [mkDocs, List.mem_cons] at h
    rcases h with rfl | h
    · exact List.mem_cons_self _ _
    · exact List.mem_cons_of_mem _ (ih (n + 1) h)

theorem GenInv_refl (s : Store) (sy sm ty tm : Int) (now : String) :
    GenInv s sy sm ty tm now s := by
  intro pid key
  exact ⟨fun _ => rfl, fun _ => ⟨rfl, [], by simp, by simp⟩⟩

theorem genExpensesSpec_inv_step (s st : Store) (pid0 : String) (sy sm ty tm : Int)
    (dr : Bool) (now : String)
    (hkk : ¬ expensesColKey sy sm = expensesColKey ty tm)
    (hInv : GenInv s sy sm ty tm now st) :
    GenInv s sy sm ty tm now (genExpensesSpec st pid0 sy sm ty tm dr now).2 := by
  have hsrccol : getCol st pid0 (expensesColKey sy sm)
      = getCol s pid0 (expensesColKey sy sm) := (hInv pid0 _).1 hkk
  have hsrc : getExpenses st pid0 sy sm = getExpenses s pid0 sy sm :=
    getExpenses_congr _ _ _ _ _ hsrccol
  rcases h1 : (getExpenses st pid0 sy sm).isEmpty with _ | _
  case true =>
    rw [genExpensesSpec_src_empty _ _ _ _ _ _ _ _ h1]
    exact hInv
  case false =>
  rcases h2 : ((getExpenses st pid0 sy sm).filter
      (fun e => decide (e.isRecurring = some true))).isEmpty with _ | _
  case true =>
    rw [genExpensesSpec_rec_empty _ _ _ _ _ _ _ _ h1 h2]
    exact hInv
  case false =>
  rw [genExpensesSpec_main st pid0 sy sm ty tm dr now h1 h2]
  rcases dr with _ | _
  case true =>
    simp only [if_pos rfl]
    exact hInv
  case false =>
  simp only [Bool.false_eq_true, if_false]
  intro pid key
  constructor
  · intro hk
    rw [getCol_appendItems_ne st pid0 _ pid key _
      (by
        intro hpair
        obtain ⟨_, hke⟩ := Prod.mk.injEq .. ▸ hpair
        exact hk hke)]
    exact (hInv pid key).1 hk
  · intro hk
    subst hk
    by_cases hpp : pid = pid0
    · subst hpp
      rw [getCol_appendItems_same]
      obtain ⟨hrf, extra, hdocs, hP⟩ := (hInv pid _).2 rfl
      refine ⟨hrf, extra ++ mkDocs (getCol st pid (expensesColKey ty tm)).docs.length
        (pureGen pid sy sm ty tm now (getExpenses st pid ty tm)
          ((getExpenses st pid sy sm).filter
            (fun e => decide (e.isRecurring = some true)))).2, ?_, ?_⟩
      · simp only
        rw [hdocs, List.append_assoc]
      · intro x hx
        rw [List.mem_append] at hx
        rcases hx with hx | hx
        · exact hP x hx
        · have hdata := mkDocs_data_mem _ _ x hx
          obtain ⟨e, he, _, cd, hcl, hb⟩ := pureGen_items_origin pid sy sm ty tm now
            (getExpenses st pid ty tm) _ x.data hdata
          rw [hsrc] at he
          rw [List.mem_filter] at he
          exact ⟨e, he.1, of_decide_eq_true he.2, cd, hcl, hb⟩
    · rw [getCol_appendItems_ne st pid0 _ pid _ _
        (by
          intro hpair
          obtain ⟨hpe, _⟩ := Prod.mk.injEq .. ▸ hpair
          exact hpp hpe)]
      exact (hInv pid _).2 rfl

theorem foldl_props_inv (s : Store) (sy sm ty tm : Int) (dr : Bool) (now : String)
    (hkk : ¬ expensesColKey sy sm = expensesColKey ty tm)
    (props : List PropertyRec) :
    ∀ (acc : PropResult × Nat × Store), GenInv s sy sm ty tm now acc.2.2 →
      GenInv s sy sm ty tm now
        (props.foldl (processPropertySpec sy sm ty tm dr now) acc).2.2 := by
  induction props with
  | nil => intro acc h; exact h
  | cons p ps ih =>
    intro acc h
    rw [List.foldl_cons]
    exact ih (processPropertySpec sy sm ty tm dr now acc p)
      (genExpensesSpec_inv_step s acc.2.2 p.id sy sm ty tm dr now hkk h)

theorem generate_new_doc_origin (s : Store) (opts : GenOptions) (tY tM : Int)
    (now : String) (pid key : String) (sd : StoredDoc)
    (hmem : sd ∈ (getCol (generateRecurringRecords s opts tY tM now).2 pid key).docs) :
    sd ∈ (getCol s pid key).docs
    ∨ (key = expensesColKey (_calculateDates opts tY tM).targetYear
          (_calculateDates opts tY tM).targetMonth
       ∧ NewDocSpec s (_calculateDates opts tY tM) now pid sd.data) := by
  rcases hp : s.properties.isEmpty with _ | _
  case true =>
    rw [generateRecurringRecords_empty s opts tY tM now hp] at hmem
    exact Or.inl hmem
  case false =>
  rw [generateRecurringRecords_nonempty s opts tY tM now hp] at hmem
  simp only at hmem
  by_cases hkk : expensesColKey (_calculateDates opts tY tM).sourceYear
      (_calculateDates opts tY tM).sourceMonth
    = expensesColKey (_calculateDates opts tY tM).targetYear
      (_calculateDates opts tY tM).targetMonth
  · rw [foldl_props_selfskip _ _ _ _ _ _ hkk s.properties s] at hmem
    exact Or.inl hmem
  · have hinv := foldl_props_inv s _ _ _ _ opts.dryRun now hkk s.properties
      (⟨0, 0, []⟩, 0, s) (GenInv_refl s _ _ _ _ now)
    by_cases hk : key = expensesColKey (_calculateDates opts tY tM).targetYear
        (_calculateDates opts tY tM).targetMonth
    · obtain ⟨_, extra, hdocs, hP⟩ := (hinv pid key).2 hk
      rw [hdocs, List.mem_append] at hmem
      rcases hmem with hmem | hmem
      · exact Or.inl hmem
      · exact Or.inr ⟨hk, hP sd hmem⟩
    · rw [(hinv pid key).1 hk] at hmem
      exact Or.inl hmem

theorem getExpenses_mem (s : Store) (pid : String) (y m : Int) (e : ExpenseData)
    (h : e ∈ getExpenses s pid y m) :
    ∃ sdc, sdc ∈ (getCol s pid (expensesColKey y m)).docs ∧ e = readDoc sdc := by
  unfold getExpenses at h
  by_cases hpid : pid = ""
  · rw [if_pos hpid] at h
    cases h
  · rw [if_neg hpid] at h
    rcases hrf : (getCol s pid (expensesColKey y m)).readFails with _ | _
    · simp only [hrf, Bool.false_eq_true, if_false] at h
      obtain ⟨sdc, hm, heq⟩ := List.mem_map.mp h
      exact ⟨sdc, hm, heq.symm⟩
    · simp only [hrf, if_true] at h
      cases h

/-- Claim C4: every document persisted by `generate` (any document of the
resulting store that was not already present) lives in the target-period
collection and has the payment-status fields (`paymentDate`, `paidDate`,
`receipt`, `referenceNumber`) absent, `year`/`month` equal to the target period,
`isActive = true`, and a `generatedFrom` lineage referencing a recurring source
item of the source period and the property. -/
theorem generate_created_item_postcondition (s : Store) (opts : GenOptions)
    (tY tM : Int) (now : String) (pid key : String) (sd : StoredDoc)
    (hmem : sd ∈ (getCol (generateRecurringRecords s opts tY tM now).2 pid key).docs) :
    sd ∈ (getCol s pid key).docs
    ∨ (key = expensesColKey (_calculateDates opts tY tM).targetYear
          (_calculateDates opts tY tM).targetMonth
       ∧ sd.data.paymentDate = none ∧ sd.data.paidDate = none
       ∧ sd.data.receipt = none ∧ sd.data.referenceNumber = none
       ∧ sd.data.year = some (_calculateDates opts tY tM).targetYear
       ∧ sd.data.month = some (_calculateDates opts tY tM).targetMonth
       ∧ sd.data.isActive = some true
       ∧ ∃ e, e ∈ getExpenses s pid (_calculateDates opts tY tM).sourceYear
             (_calculateDates opts tY tM).sourceMonth
           ∧ e.isRecurring = some true
           ∧ sd.data.generatedFrom = some ⟨e.id, (_calculateDates opts tY tM).sourceYear,
               (_calculateDates opts tY tM).sourceMonth, pid, now⟩) := by
  rcases generate_new_doc_origin s opts tY tM now pid key sd hmem with h | ⟨hk, hnew⟩
  · exact Or.inl h
  · obtain ⟨e, he, hrec, cd, hcl, hb⟩ := hnew
    obtain ⟨_, _, _, hpm, hpd, hrc, hrn, hyr, hmo, hact⟩ :=
      cleanData_ok_fields e _ _ now cd hcl
    refine Or.inr ⟨hk, ?_, ?_, ?_, ?_, ?_, ?_, ?_, e, he, hrec, ?_⟩
    · rw [hb]; exact hpm
    · rw [hb]; exact hpd
    · rw [hb]; exact hrc
    · rw [hb]; exact hrn
    · rw [hb]; exact hyr
    · rw [hb]; exact hmo
    · rw [hb]; exact hact
    · rw [hb]; rfl

/-- Claim C10 (amended): every document persisted by `generate` carries a
stray `id` field equal to the merged read id of its source document — the source
document's own store id only when the source data embeds no `id` field,
otherwise the embedded id (as happens for items that were themselves
generated). -/
theorem stray_id_characterization (s : Store) (opts : GenOptions) (tY tM : Int)
    (now : String) (pid key : String) (sd : StoredDoc)
    (hmem : sd ∈ (getCol (generateRecurringRecords s opts tY tM now).2 pid key).docs) :
    sd ∈ (getCol s pid key).docs
    ∨ ∃ src, src ∈ (getCol s pid
          (expensesColKey (_calculateDates opts tY tM).sourceYear
            (_calculateDates opts tY tM).sourceMonth)).docs
        ∧ sd.data.id = some (src.data.id.getD src.docId) := by
  rcases generate_new_doc_origin s opts tY tM now pid key sd hmem with h | ⟨_, hnew⟩
  · exact Or.inl h
  · obtain ⟨e, he, _, cd, hcl, hb⟩ := hnew
    obtain ⟨sdoc, hsdoc, heq⟩ := getExpenses_mem s pid _ _ e he
    refine Or.inr ⟨sdoc, hsdoc, ?_⟩
    rw [hb]
    have hid := (cleanData_ok_fields e _ _ now cd hcl).2.2.1
    show cd.id = _
    rw [hid, heq]
    rfl

/-- Claim C5 (amended): a property whose source-period fetch fails is
silently treated as having no source items — no error entry is recorded, its
counts are zero and the store is unchanged — and `generate` continues with the
next property, counting every property as processed. -/
theorem property_fetch_failure_silent (s : Store) (pid : String) (sy sm ty tm : Int)
    (dr : Bool) (now : String)
    (h : (getCol s pid (expensesColKey sy sm)).readFails = true) :
    _generateRecurringExpenses s pid sy sm ty tm dr now = (⟨0, 0, []⟩, s)
    ∧ ∀ (opts : GenOptions) (tY tM : Int) (r : RunSummary),
        (generateRecurringRecords s opts tY tM now).1.summary = some r →
        r.propertiesProcessed = s.properties.length := by
  constructor
  · rw [generateRecurring_eq_spec]
    apply genExpensesSpec_src_empty
    unfold getExpenses
    by_cases hpid : pid = ""
    · rw [if_pos hpid]
      rfl
    · rw [if_neg hpid]
      simp [h]
  · intro opts tY tM r hsum
    rcases hp : s.properties.isEmpty with _ | _
    case true =>
      rw [generateRecurringRecords_empty s opts tY tM now hp] at hsum
      simp at hsum
    case false =>
      rw [generateRecurringRecords_nonempty s opts tY tM now hp] at hsum
      simp only [Option.some.injEq] at hsum
      rw [← hsum]
      simp only
      rw [foldl_props_count]
      simp

/-- Claim C1 witness: the idempotence theorem instantiated at a concrete
two-item store. -/
theorem generate_sequential_idempotent_witness :
    (generateRecurringRecords (generateRecurringRecords demoStore demoOpts 2025 6 "T1").2
        demoOpts 2025 6 "T2").2
      = (generateRecurringRecords demoStore demoOpts 2025 6 "T1").2
    ∧ resCreated (generateRecurringRecords
        (generateRecurringRecords demoStore demoOpts 2025 6 "T1").2 demoOpts 2025 6 "T2").1
      = 0
    ∧ resCreated (generateRecurringRecords demoStore demoOpts 2025 6 "T1").1
        + resSkipped (generateRecurringRecords demoStore demoOpts 2025 6 "T1").1
      ≤ resSkipped (generateRecurringRecords
          (generateRecurringRecords demoStore demoOpts 2025 6 "T1").2 demoOpts 2025 6 "T2").1 :=
  generate_sequential_idempotent demoStore demoOpts 2025 6 "T1" "T2" (by decide)
    (readsOk_of_all demoStore (by decide)) rfl

/-- Claim C3 witness: the dry-run theorem instantiated at a concrete
two-item store. -/
theorem generate_dryRun_neutral_witness :
    (generateRecurringRecords demoStore { demoOpts with dryRun := true } 2025 6 "T").2
      = demoStore
    ∧ (generateRecurringRecords demoStore { demoOpts with dryRun := true } 2025 6 "T").1.expenses
      = (generateRecurringRecords demoStore { demoOpts with dryRun := false }
          2025 6 "T").1.expenses :=
  generate_dryRun_neutral demoStore demoOpts 2025 6 "T" (by decide)

/-- Claim C4 witness: the postcondition theorem instantiated at the document
the demo run persists. -/
theorem generate_created_item_postcondition_witness :
    (⟨"auto0", demoGenData⟩ : StoredDoc) ∈ (getCol demoStore "p1" "2025-07").docs
    ∨ ("2025-07" = expensesColKey (_calculateDates demoOpts 2025 6).targetYear
          (_calculateDates demoOpts 2025 6).targetMonth
       ∧ demoGenData.paymentDate = none ∧ demoGenData.paidDate = none
       ∧ demoGenData.receipt = none ∧ demoGenData.referenceNumber = none
       ∧ demoGenData.year = some (_calculateDates demoOpts 2025 6).targetYear
       ∧ demoGenData.month = some (_calculateDates demoOpts 2025 6).targetMonth
       ∧ demoGenData.isActive = some true
       ∧ ∃ e, e ∈ getExpenses demoStore "p1" (_calculateDates demoOpts 2025 6).sourceYear
             (_calculateDates demoOpts 2025 6).sourceMonth
           ∧ e.isRecurring = some true
           ∧ demoGenData.generatedFrom = some ⟨e.id,
               (_calculateDates demoOpts 2025 6).sourceYear,
               (_calculateDates demoOpts 2025 6).sourceMonth, "p1", "T"⟩) :=
  generate_created_item_postcondition demoStore demoOpts 2025 6 "T" "p1" "2025-07"
    ⟨"auto0", demoGenData⟩ (by decide)

/-- Claim C5 amended witness: the amended theorem instantiated at a concrete
one-property store with a failing source read. -/
theorem property_fetch_failure_silent_witness :
    _generateRecurringExpenses storeC5 "p1" 2025 6 2025 7 false "T" = (⟨0, 0, []⟩, storeC5)
    ∧ RunSummary.propertiesProcessed ⟨2025, 6, 2025, 7, false, "T", 1, 0, 0, 0⟩
        = storeC5.properties.length := by
  have h := property_fetch_failure_silent storeC5 "p1" 2025 6 2025 7 false "T" (by decide)
  exact ⟨h.1, h.2 ⟨some 2025, some 6, some 2025, some 7, false⟩ 2025 6
    ⟨2025, 6, 2025, 7, false, "T", 1, 0, 0, 0⟩ (by decide)⟩

/-- Claim C10 amended witness: the amended theorem instantiated at the
persisted item of a second, chained generation run. -/
theorem stray_id_characterization_witness :
    (⟨"auto0", c10GenData2⟩ : StoredDoc) ∈ (getCol storeC10After1 "p1" "2025-08").docs
    ∨ ∃ src, src ∈ (getCol storeC10After1 "p1"
          (expensesColKey (_calculateDates optsC10b 2025 7).sourceYear
            (_calculateDates optsC10b 2025 7).sourceMonth)).docs
        ∧ c10GenData2.id = some (src.data.id.getD src.docId) :=
  stray_id_characterization storeC10After1 optsC10b 2025 7 "T2" "p1" "2025-08"
    ⟨"auto0", c10GenData2⟩ (by decide)

/-- Claim C2: the result of `generate` has `success = true` exactly when the
property enumeration is non-empty; per-item and per-property failures appear
only in the error list and never make `success` false. -/
theorem generate_success_iff_properties (s : Store) (opts : GenOptions) (tY tM : Int)
    (now : String) :
    ((generateRecurringRecords s opts tY tM now).1.success = true) ↔ s.properties ≠ [] := by
  unfold generateRecurringRecords _getAllProperties
  rcases h : s.properties with _ | ⟨p, ps⟩ <;> simp [h]

/-- Claim C6 counterexample: `getCollection` accepts month 13 and produces
the key "2025-13" instead of failing with InvalidPeriod, and month 0 falls back
to the unscoped base collection instead of failing. -/
theorem periodKey_no_month_validation_counterexample :
    getCollection "expenses" (some "p1") none (some 2025) (some 13)
        = Except.ok (Loc.expenseItems "p1" "2025-13")
      ∧ getCollection "expenses" (some "p1") none (some 2025) (some 0)
        = Except.ok (Loc.expensesBase "p1") :=
  ⟨rfl, rfl⟩

/-- Claim C6 (amended): the period key encoder performs no month-range
validation: a zero (falsy) month resolves to the unscoped base collection, any
nonzero month is embedded into the key, and for months 1-12 the key is the
zero-padded form `{year}-{month:02d}`. -/
theorem periodKey_encoding_behavior (pid : String) (y m : Int)
    (hp : pid ≠ "") (hy : y ≠ 0) :
    (m ≠ 0 → getCollection "expenses" (some pid) none (some y) (some m)
        = Except.ok (Loc.expenseItems pid (periodKey y m)))
    ∧ (m = 0 → getCollection "expenses" (some pid) none (some y) (some m)
        = Except.ok (Loc.expensesBase pid))
    ∧ (1 ≤ m → m ≤ 12 →
        periodKey y m
          = toString y ++ "-" ++ (if m ≤ 9 then "0" ++ toString m else toString m)) := by
  refine ⟨?_, ?_, ?_⟩
  · intro hm
    simp [getCollection, truthyStr, truthyInt, hp, hy, hm, bne]
  · intro hm
    simp [getCollection, truthyStr, truthyInt, hp, hy, hm, bne]
  · intro h1 h2
    have : periodKey y m = toString y ++ "-" ++ padStart2 (toString m) := rfl
    rw [this]
    interval_cases m <;> exact congrArg (fun t => toString y ++ "-" ++ t) (by decide)

/-- Claim C7: a source item whose `dueDate` parses as a date whose day
exists in the following calendar month is cleaned to a `dueDate` exactly one
calendar month later with the same day of month; a source item with no
`dueDate` yields a generated item with no `dueDate` field. -/
theorem dueDate_advance_one_month (data : ExpenseData) (ty tm : Int) (now : String) :
    (∀ ds y m d, data.dueDate = some ds → parseISODate ds = some (y, m, d) →
      d ≤ daysInMonth (nextMonth y m).1 (nextMonth y m).2 →
      ∃ cd, _cleanDataForNewPeriod data ty tm now = Except.ok cd
        ∧ cd.dueDate = some (formatISODate (nextMonth y m).1 (nextMonth y m).2 d))
    ∧ (data.dueDate = none →
      ∃ cd, _cleanDataForNewPeriod data ty tm now = Except.ok cd ∧ cd.dueDate = none) := by
  constructor
  · intro ds y m d hdue hparse hfits
    have hne : ds ≠ "" := by
      intro h
      rw [h] at hparse
      rw [show parseISODate "" = none from rfl] at hparse
      exact Option.noConfusion hparse
    have hadv : advanceDueDate ds
        = some (formatISODate (nextMonth y m).1 (nextMonth y m).2 d) := by
      unfold advanceDueDate
      rw [hparse]
      unfold addOneMonthDate
      simp [hfits]
    unfold _cleanDataForNewPeriod
    rw [hdue]
    simp only [if_neg hne, hadv]
    exact ⟨_, rfl, rfl⟩
  · intro hdue
    unfold _cleanDataForNewPeriod
    rw [hdue]
    exact ⟨_, rfl, rfl⟩

/-- Claim C7 witness: the dueDate theorem instantiated at "2025-06-15",
which advances to "2025-07-15". -/
theorem dueDate_advance_one_month_witness :
    ∃ cd, _cleanDataForNewPeriod
        { description := some "Rent", amount := some 500, isRecurring := some true,
          dueDate := some "2025-06-15" } 2025 7 "T" = Except.ok cd
      ∧ cd.dueDate = some "2025-07-15" := by
  obtain ⟨cd, h1, h2⟩ :=
    (dueDate_advance_one_month
      { description := some "Rent", amount := some 500, isRecurring := some true,
        dueDate := some "2025-06-15" } 2025 7 "T").1
      "2025-06-15" 2025 6 15 rfl (by decide) (by decide)
  exact ⟨cd, h1, by rw [h2]; decide⟩

/-- Claim C6 amended witness: the amended theorem instantiated at
year 2025, month 7. -/
theorem periodKey_encoding_behavior_witness :
    getCollection "expenses" (some "p1") none (some 2025) (some 7)
      = Except.ok (Loc.expenseItems "p1" (periodKey 2025 7))
    ∧ periodKey 2025 7 = "2025" ++ "-" ++ ("0" ++ "7") := by
  obtain ⟨h1, _, h3⟩ := periodKey_encoding_behavior "p1" 2025 7 (by decide) (by decide)
  refine ⟨h1 (by decide), ?_⟩
  rw [h3 (by decide) (by decide)]
  decide

/-- Claim C8: whenever the derived target period equals the derived source
period, `validate` returns `canGenerate = false` together with the blocking
error message, for every store. -/
theorem validate_same_period_blocks (s : Store) (opts : GenOptions) (tY tM : Int)
    (h1 : (_calculateDates opts tY tM).targetYear = (_calculateDates opts tY tM).sourceYear)
    (h2 : (_calculateDates opts tY tM).targetMonth = (_calculateDates opts tY tM).sourceMonth) :
    (validateGeneration s opts tY tM).canGenerate = false
    ∧ "El período destino no puede ser igual al período fuente"
        ∈ (validateGeneration s opts tY tM).errors := by
  unfold validateGeneration
  simp only [h1, h2]
  constructor
  · simp [getDataSummary]
  · simp

/-- Claim C8 witness: the validation theorem instantiated at an empty store
with explicit equal periods. -/
theorem validate_same_period_blocks_witness :
    (validateGeneration ⟨[], []⟩ ⟨some 2025, some 6, some 2025, some 6, false⟩ 2025 6).canGenerate
        = false
    ∧ "El período destino no puede ser igual al período fuente"
        ∈ (validateGeneration ⟨[], []⟩ ⟨some 2025, some 6, some 2025, some 6, false⟩ 2025 6).errors :=
  validate_same_period_blocks ⟨[], []⟩ ⟨some 2025, some 6, some 2025, some 6, false⟩ 2025 6
    (by decide) (by decide)

/-- Claim C9: with the target period not supplied, `_calculateDates` uses
source month + 1 as the target, rolling to month 1 of the next year when the
source month is 12; with the source period not supplied it defaults to the
injected current calendar year and month. -/
theorem calculateDates_defaulting (opts : GenOptions) (tY tM : Int) :
    (∀ sy sm, opts.sourceYear = some sy → opts.sourceMonth = some sm →
      sy ≠ 0 → 1 ≤ sm → sm ≤ 12 →
      (opts.targetYear = none ∨ opts.targetMonth = none) →
      _calculateDates opts tY tM
        = ⟨sy, sm, (if sm = 12 then sy + 1 else sy), (if sm = 12 then 1 else sm + 1)⟩)
    ∧ (opts.sourceYear = none → opts.sourceMonth = none →
      (_calculateDates opts tY tM).sourceYear = tY
        ∧ (_calculateDates opts tY tM).sourceMonth = tM) := by
  constructor
  · intro sy sm hsy hsm hy0 hm1 hm2 hty
    have hm0 : sm ≠ 0 := by omega
    unfold _calculateDates
    rw [hsy, hsm]
    have htgt : (truthyInt opts.targetYear && truthyInt opts.targetMonth) = false := by
      rcases hty with h | h <;> rw [h] <;> simp [truthyInt]
    rw [htgt]
    simp only [jsOrInt, if_neg hy0, if_neg hm0, Bool.false_eq_true, if_false]
    by_cases h12 : sm = 12
    · rw [if_pos (by omega : sm + 1 > 12), if_pos h12, if_pos h12, h12]
    · rw [if_neg (by omega : ¬ sm + 1 > 12), if_neg h12, if_neg h12]
  · intro hsy hsm
    unfold _calculateDates
    rw [hsy, hsm]
    simp only [jsOrInt]
    split
    · simp
    · split <;> simp

/-- Claim C9 witness: the defaulting theorem instantiated at source
2025-12, which rolls to target 2026-01. -/
theorem calculateDates_defaulting_witness :
    _calculateDates ⟨some 2025, some 12, none, none, false⟩ 2024 3
      = ⟨2025, 12, 2026, 1⟩ := by
  have h := (calculateDates_defaulting ⟨some 2025, some 12, none, none, false⟩ 2024 3).1
    2025 12 rfl rfl (by decide) (by decide) (by decide) (Or.inl rfl)
  rw [h]
  decide

/-- Claim C5 counterexample: on a store whose single property has a failing
source-period read, `generate` reports a successful run with an empty error
list — the property-scoped failure is silently dropped, refuting the claim that
it is recorded. -/
theorem property_fetch_failure_silent_counterexample :
    (generateRecurringRecords storeC5 ⟨some 2025, some 6, some 2025, some 7, false⟩
        2025 6 "T").1.expenses = some ⟨0, 0, []⟩
    ∧ (generateRecurringRecords storeC5 ⟨some 2025, some 6, some 2025, some 7, false⟩
        2025 6 "T").1.summary
        = some ⟨2025, 6, 2025, 7, false, "T", 1, 0, 0, 0⟩ := by
  constructor <;> decide

/-- Claim C10 counterexample: chaining two generation runs, the item
persisted by the second run carries id "doc1" (the id embedded in its source
document's data by the first run) and not "auto0", the store id of its actual
source document — the data-embedded `id` wins over `doc.id` in the read
merge. -/
theorem stray_id_counterexample :
    ((getCol storeC10After1 "p1" "2025-07").docs.map (fun d => d.docId)) = ["auto0"]
    ∧ ((getCol storeC10After2 "p1" "2025-08").docs.map (fun d => d.data.id)) = [some "doc1"]
    ∧ ¬ some "auto0" ∈ ((getCol storeC10After2 "p1" "2025-08").docs.map (fun d => d.data.id)) := by
  refine ⟨by decide, by decide, by decide⟩
